import Mathlib

/-!
Shallow embedding of the snapshot-reconciliation core of
`x_make_progress_board_x` (file `src/progress_board_widget.py`, plus the
stage-layout builder from `src/cli.py`).

Modelling conventions:
* Python dicts become insertion-ordered association lists `List (String × α)`
  manipulated through `dictGet` / `dictInsert` / `dictPop`, which mirror
  `d.get`, `d[k] = v` and `d.pop(k, None)`.
* JSON payload values (`object` in the Python signatures) become the
  inductive `PyVal`; `pyTruthy` mirrors CPython truthiness and `pyStr`
  mirrors `str(...)` (container rendering is approximated by a placeholder,
  no development below depends on it).
* `pathlib.Path` values become `PyPath` (an absolute flag plus segments);
  `Path.resolve()` becomes `resolvePath` against an explicit process working
  directory `cwd`, collapsing `..` lexically (no symlinks).
* Filesystem access (`Path.stat`, `read_text` + `json.loads`) becomes an
  explicit oracle `FS`; `stat` yields the file's mtime (modelled as `Int`,
  only compared for equality, mirroring the `float` in the source) and
  `readPayload` yields the parsed JSON object of
  `ProgressBoardWidget._read_json_payload` (`none` on OSError,
  JSONDecodeError, or a non-mapping payload).
* Qt widget state is reduced to the data the source writes through it:
  each `QListWidgetItem` becomes an `ItemState` (text + check state, with
  `Unchecked = 0`, `PartiallyChecked = 1`, `Checked = 2`), the detail
  `QTableWidget` becomes a list of `DetailRow`s, the status `QLabel` a
  string, the poll `QTimer` a running flag, and the `board_completed`
  signal an emission counter.
-/

/-- JSON-style Python value, as produced by `json.loads` and consumed by the
normalisation helpers of `ProgressBoardWidget`. -/
inductive PyVal where
  | vstr : String → PyVal
  | vint : Int → PyVal
  | vbool : Bool → PyVal
  | vnull : PyVal
  | vlist : List PyVal → PyVal
  | vdict : List (String × PyVal) → PyVal

/-- CPython truthiness (`bool(x)`) restricted to JSON-style values. -/
def pyTruthy : PyVal → Bool
  | .vstr s => !(s == "")
  | .vint n => !(n == 0)
  | .vbool b => b
  | .vnull => false
  | .vlist xs => !xs.isEmpty
  | .vdict m => !m.isEmpty

/-- CPython `str(x)` on JSON-style values.  Container rendering is
approximated by a fixed placeholder: the source only ever applies `str` to
values that are strings in every scenario a claim quantifies over. -/
def pyStr : PyVal → String
  | .vstr s => s
  | .vint n => toString n
  | .vbool b => if b then "True" else "False"
  | .vnull => "None"
  | .vlist _ => "[...]"
  | .vdict _ => "\x7b...\x7d"

/-- Python `a or b` specialised to values (`a if bool(a) else b`). -/
def pyOr (a b : PyVal) : PyVal := if pyTruthy a then a else b

/-- `str.lower()`, modelled over the character list (ASCII case fold, the
range the source's status vocabulary lives in). -/
def pyLower (s : String) : String := String.mk (s.data.map Char.toLower)

/-- `str.strip()`: drop leading and trailing whitespace. -/
def pyStrip (s : String) : String :=
  String.mk
    (((s.data.dropWhile Char.isWhitespace).reverse.dropWhile
      Char.isWhitespace).reverse)

/-- Helper for `splitSlash`: split a character list on a separator, keeping
empty pieces, accumulating the current piece in reverse. -/
def splitCharAux (sep : Char) : List Char → List Char → List (List Char)
  | acc, [] => [acc.reverse]
  | acc, c :: rest =>
    if c == sep then acc.reverse :: splitCharAux sep [] rest
    else splitCharAux sep (c :: acc) rest

/-- `s.split("/")` semantics as used by path parsing. -/
def splitSlash (s : String) : List String :=
  (splitCharAux (Char.ofNat 47) [] s.data).map String.mk

/-- Does the path string start with a slash (POSIX absolute)? -/
def startsWithSlash (s : String) : Bool :=
  match s.data with
  | c :: _ => c == Char.ofNat 47
  | [] => false

/-- `d.get(k)` on an insertion-ordered association list. -/
def dictGet {α : Type} (m : List (String × α)) (k : String) : Option α :=
  match m.find? (fun p => p.1 == k) with
  | some p => some p.2
  | none => none

/-- `d.get(k)` where a missing key yields Python `None`. -/
def pyGet (m : List (String × PyVal)) (k : String) : PyVal :=
  match dictGet m k with
  | some v => v
  | none => .vnull

/-- `d[k] = v`: overwrite in place when the key is present (every stored
pair with that key, which for duplicate-free lists is the single one),
otherwise append, preserving insertion order. -/
def dictInsert {α : Type} (m : List (String × α)) (k : String) (v : α) :
    List (String × α) :=
  if (m.find? (fun p => p.1 == k)).isSome then
    m.map (fun p => if p.1 == k then (k, v) else p)
  else
    m ++ [(k, v)]

/-- `d.pop(k, None)`: drop the key if present. -/
def dictPop {α : Type} (m : List (String × α)) (k : String) :
    List (String × α) :=
  m.filter (fun p => !(p.1 == k))

/-- `pathlib.PurePath`: absolute flag plus the non-anchor segments (pathlib
drops empty and `"."` components at construction). -/
structure PyPath where
  isAbs : Bool
  segs : List String
deriving DecidableEq, Repr

/-- `Path(s)` for a POSIX path string. -/
def parsePath (s : String) : PyPath :=
  { isAbs := startsWithSlash s
    segs := (splitSlash s).filter (fun c => !(c == "") && !(c == ".")) }

/-- `p / q`: joining with an absolute right operand replaces the left. -/
def pathJoin (p q : PyPath) : PyPath :=
  if q.isAbs then q else { isAbs := p.isAbs, segs := p.segs ++ q.segs }

/-- `p.parent`. -/
def pathParent (p : PyPath) : PyPath :=
  { isAbs := p.isAbs, segs := p.segs.dropLast }

/-- Lexical `..`-collapsing over the segments of an absolute path; `acc`
holds the already-emitted segments in reverse. -/
def normSegs : List String → List String → List String
  | acc, [] => acc.reverse
  | acc, ".." :: rest => normSegs acc.tail rest
  | acc, seg :: rest => normSegs (seg :: acc) rest

/-- `p.resolve()` with process working directory `cwd` (assumed absolute):
make the path absolute against `cwd`, then collapse `..` lexically (the
symlink-free behaviour of `Path.resolve`). -/
def resolvePath (cwd p : PyPath) : PyPath :=
  let q := if p.isAbs then p else pathJoin cwd p
  { isAbs := true, segs := normSegs [] q.segs }

/-- `str(p)` for a POSIX path. -/
def renderPath (p : PyPath) : String :=
  if p.isAbs then "/" ++ String.intercalate "/" p.segs
  else if p.segs.isEmpty then "."
  else String.intercalate "/" p.segs

/-- One stage record of the external progress snapshot
(`x_make_common_x.progress_snapshot.ProgressStage`, spec section 6):
`stage_id`, `title`, `status`, `messages`, `metadata`.  A `None` metadata
mapping is represented by the empty list. -/
structure Stage where
  stage_id : String
  title : String
  status : String
  messages : List String
  metadata : List (String × PyVal)

/-- The external progress snapshot: an insertion-ordered mapping of
stage id → stage record. -/
structure Snapshot where
  stages : List (String × Stage)

/-- `_RepoEntry`. -/
structure RepoEntry where
  repo_id : String
  display_name : String
  status : String
  updated_at : String
  messages : List String
  detail_path : Option String
deriving DecidableEq, Repr

/-- `_RepoIndexCacheEntry`. -/
structure RepoIndexCacheEntry where
  path : PyPath
  mtime : Option Int
  entries : List RepoEntry
deriving DecidableEq, Repr

/-- The data the widget writes into one `QListWidgetItem`: its text and its
check state (`Unchecked = 0`, `PartiallyChecked = 1`, `Checked = 2`). -/
structure ItemState where
  text : String
  checkState : Nat
deriving DecidableEq, Repr

/-- One rendered row of the repository-detail `QTableWidget`
(`_update_detail_view`): the four cell texts plus the tooltip installed on
the message cell. -/
structure DetailRow where
  repoCell : String
  statusCell : String
  updatedCell : String
  messagesCell : String
  tooltip : Option String
deriving DecidableEq, Repr

/-- Filesystem oracle for the repo-index side channel: `stat` yields the
file's mtime (`none` = OSError), `readPayload` the parsed JSON object
(`none` = OSError, JSONDecodeError, or non-mapping payload). -/
structure FS where
  stat : PyPath → Option Int
  readPayload : PyPath → Option (List (String × PyVal))

/-- The mutable state of `ProgressBoardWidget` that the polling logic
touches. -/
structure BoardState where
  stageDefinitions : List (String × String)
  items : List (String × ItemState)
  repoIndexCache : List (String × RepoIndexCacheEntry)
  completionTriggered : Bool
  timerActive : Bool
  statusLabel : String
  emitCount : Nat
  selectedStageId : Option String
  detailTable : List DetailRow
deriving DecidableEq, Repr

/-- `_DONE_STATUSES`. -/
def doneStatuses : List String := ["completed", "attention", "blocked"]

/-- `ProgressBoardWidget._check_state_for_status`. -/
def checkStateForStatus (status : String) : Nat :=
  let normalized := pyStrip (pyLower status)
  if doneStatuses.contains normalized then 2
  else if normalized == "running" then 1
  else if normalized == "pending" then 0
  else 1

/-- `ProgressBoardWidget._message_suffix`: the last non-blank message,
trimmed and parenthesised. -/
def messageSuffix (messages : List String) : String :=
  match messages.reverse.find? (fun m => !(pyStrip m == "")) with
  | some m => " (" ++ pyStrip m ++ ")"
  | none => ""

/-- `ProgressBoardWidget._apply_stage_state`: overwrite the item's text and
check state from the stage's title/status/messages and report whether the
status is terminal.  The old item contents are never read (`setText` /
`setCheckState` fully replace them), hence the unused parameter. -/
def applyStageState (_item : ItemState) (title status : String)
    (messages : List String) : ItemState × Bool :=
  let statusText := if status == "" then "pending" else status
  let suffix := messageSuffix messages
  let newItem : ItemState :=
    { text := title ++ " - " ++ statusText ++ suffix
      checkState := checkStateForStatus (pyLower statusText) }
  (newItem, doneStatuses.contains (pyLower statusText))

/-- `ProgressBoardWidget._record_stage_definition`: overwrite the title of
the first matching registry entry in place, else append. -/
def recordStageDefinition : List (String × String) → String → String →
    List (String × String)
  | [], stageId, title => [(stageId, title)]
  | (eid, etitle) :: rest, stageId, title =>
    if eid == stageId then (stageId, title) :: rest
    else (eid, etitle) :: recordStageDefinition rest stageId title

/-- `ProgressBoardWidget._ensure_stage_item`: create a pending, unchecked
checklist item for the stage unless one already exists. -/
def ensureStageItem (items : List (String × ItemState))
    (stageId title : String) : List (String × ItemState) :=
  if (dictGet items stageId).isSome then items
  else items ++ [(stageId, { text := title ++ " - pending", checkState := 0 })]

/-- `ProgressBoardWidget._normalized_messages`. -/
def normalizedMessages : PyVal → List String
  | .vlist xs =>
    (xs.map (fun v => pyStrip (pyStr v))).filter (fun t => !(t == ""))
  | .vstr s => if pyStrip s == "" then [] else [pyStrip s]
  | _ => []

/-- `ProgressBoardWidget._normalize_repo_entry`.  The source's return type
is `_RepoEntry | None`, but every path through the body returns an entry. -/
def normalizeRepoEntry (cwd : PyPath) (entry : List (String × PyVal))
    (entriesDir : PyPath) : Option RepoEntry :=
  let repoId := pyStr (pyOr (pyGet entry "repo_id") (.vstr ""))
  let display :=
    pyStr (pyOr (pyGet entry "display_name")
      (pyOr (.vstr repoId) (.vstr "<repo>")))
  let status := pyStr (pyOr (pyGet entry "status") (.vstr "pending"))
  let updatedAt := pyStr (pyOr (pyGet entry "updated_at") (.vstr ""))
  let preview := normalizedMessages (pyGet entry "message_preview")
  let detailPath : Option String :=
    match pyGet entry "detail_path" with
    | .vstr s =>
      if s == "" then none
      else some (renderPath (resolvePath cwd (pathJoin entriesDir (parsePath s))))
    | _ => none
  some
    { repo_id := repoId
      display_name := display
      status := status
      updated_at := updatedAt
      messages := preview
      detail_path := detailPath }

/-- `ProgressBoardWidget._normalize_repo_entries`: only a proper sequence
(not a string) of mappings yields entries; non-mapping elements are
skipped, and a `None` result from the normaliser would be dropped. -/
def normalizeRepoEntries (cwd : PyPath) (entriesPayload : PyVal)
    (entriesDir : PyPath) : List RepoEntry :=
  match entriesPayload with
  | .vlist xs =>
    xs.filterMap (fun e =>
      match e with
      | .vdict m => normalizeRepoEntry cwd m entriesDir
      | _ => none)
  | _ => []

/-- The parse-and-normalise tail of
`ProgressBoardWidget._load_repo_index_payload` (everything after the
mtime-gated cache hit check): read the JSON payload, pick the entries
directory (a declared non-blank string `entries_dir`, else the index
file's parent), normalise the entries, and build a fresh cache entry. -/
def loadRepoIndexFresh (cwd : PyPath) (fs : FS) (indexPath : PyPath)
    (mtime : Int) : Option RepoIndexCacheEntry :=
  match fs.readPayload indexPath with
  | none => none
  | some payload =>
    let entriesDir :=
      match dictGet payload "entries_dir" with
      | some (.vstr s) =>
        if pyStrip s == "" then pathParent indexPath else parsePath (pyStrip s)
      | _ => pathParent indexPath
    let entriesPayload :=
      match dictGet payload "entries" with
      | some v => v
      | none => .vnull
    some
      { path := indexPath
        mtime := some mtime
        entries := normalizeRepoEntries cwd entriesPayload entriesDir }

/-- `ProgressBoardWidget._load_repo_index_payload`: no (or falsy) index
path in the metadata, or a failed stat, yields nothing; an unchanged mtime
against the cached entry returns the cached entry verbatim without reading
the file; otherwise the file is re-read and re-normalised. -/
def loadRepoIndexPayload (cwd : PyPath) (fs : FS)
    (cache : List (String × RepoIndexCacheEntry)) (stageId : String)
    (metadata : List (String × PyVal)) : Option RepoIndexCacheEntry :=
  let indexPathObj := pyGet metadata "repo_progress_index_path"
  if !pyTruthy indexPathObj then none
  else
    let indexPath := parsePath (pyStr indexPathObj)
    match fs.stat indexPath with
    | none => none
    | some m =>
      match dictGet cache stageId with
      | some cached =>
        if cached.mtime == some m then some cached
        else loadRepoIndexFresh cwd fs indexPath m
      | none => loadRepoIndexFresh cwd fs indexPath m

/-- `ProgressBoardWidget._prune_stale_repo_cache`: drop every cached stage
id not observed this poll (popping the collected stale keys one by one
amounts to filtering, order preserved). -/
def pruneStaleRepoCache (cache : List (String × RepoIndexCacheEntry))
    (observedIds : List String) : List (String × RepoIndexCacheEntry) :=
  cache.filter (fun p => observedIds.contains p.1)

/-- One iteration of the loop in
`ProgressBoardWidget._refresh_stage_repo_details`: reload-or-drop the cache
entry of one snapshot stage. -/
def cacheStep (cwd : PyPath) (fs : FS)
    (cache : List (String × RepoIndexCacheEntry)) (p : String × Stage) :
    List (String × RepoIndexCacheEntry) :=
  match loadRepoIndexPayload cwd fs cache p.1 p.2.metadata with
  | none => dictPop cache p.1
  | some entry => dictInsert cache p.1 entry

/-- `ProgressBoardWidget._refresh_stage_repo_details`: per snapshot stage,
reload-or-drop its cache entry, then prune ids absent from this poll. -/
def refreshStageRepoDetails (cwd : PyPath) (fs : FS)
    (cache : List (String × RepoIndexCacheEntry))
    (stages : List (String × Stage)) : List (String × RepoIndexCacheEntry) :=
  pruneStaleRepoCache (stages.foldl (cacheStep cwd fs) cache)
    (stages.map Prod.fst)

/-- One row of `ProgressBoardWidget._update_detail_view`: display name
falls back through repo id to a placeholder; messages are joined with a
separator, skipping empty ones; the detail path becomes the tooltip. -/
def renderDetailRow (entry : RepoEntry) : DetailRow :=
  { repoCell :=
      if !(entry.display_name == "") then entry.display_name
      else if !(entry.repo_id == "") then entry.repo_id
      else "<repo>"
    statusCell := entry.status
    updatedCell := entry.updated_at
    messagesCell :=
      String.intercalate " | " (entry.messages.filter (fun m => !(m == "")))
    tooltip := entry.detail_path }

/-- `ProgressBoardWidget._update_detail_view`: no selection or no cache
entry clears the table, otherwise the cached entries are rendered. -/
def updateDetailView (cache : List (String × RepoIndexCacheEntry))
    (stageId : Option String) : List DetailRow :=
  match stageId with
  | none => []
  | some sid =>
    match dictGet cache sid with
    | none => []
    | some cacheEntry => cacheEntry.entries.map renderDetailRow

/-- The first loop of `ProgressBoardWidget._update_from_snapshot`: record
the definition and ensure a checklist item for every snapshot stage. -/
def ingestStages (snapStages : List (String × Stage))
    (defs : List (String × String)) (items : List (String × ItemState)) :
    List (String × String) × List (String × ItemState) :=
  snapStages.foldl
    (fun acc p =>
      (recordStageDefinition acc.1 p.1 p.2.title,
       ensureStageItem acc.2 p.1 p.2.title))
    (defs, items)

/-- The second loop of `ProgressBoardWidget._update_from_snapshot`:
enumerate the registry in order; entries without a checklist item are
skipped; for the rest, resolve the snapshot record (missing records mean
status `"pending"`, empty messages), correct the stored title in place,
rewrite the item, and accumulate `all_done` as the conjunction of the
per-stage terminal results.  The in-place `self._stage_definitions[index]`
write only ever touches the entry being visited, so the recursion carries
the updated prefix directly. -/
def reconcileStages (stages : List (String × Stage)) :
    List (String × String) → List (String × ItemState) → Bool →
    List (String × String) × List (String × ItemState) × Bool
  | [], items, allDone => ([], items, allDone)
  | (stageId, storedTitle) :: rest, items, allDone =>
    match dictGet items stageId with
    | none =>
      let r := reconcileStages stages rest items allDone
      ((stageId, storedTitle) :: r.1, r.2.1, r.2.2)
    | some item =>
      let stageObj := dictGet stages stageId
      let title := match stageObj with
        | some so => so.title
        | none => storedTitle
      let defEntry : String × String := match stageObj with
        | some so => (stageId, so.title)
        | none => (stageId, storedTitle)
      let status := match stageObj with
        | some so => so.status
        | none => "pending"
      let messages := match stageObj with
        | some so => so.messages
        | none => []
      let applied := applyStageState item title status messages
      let r := reconcileStages stages rest (dictInsert items stageId applied.1)
        (allDone && applied.2)
      (defEntry :: r.1, r.2.1, r.2.2)

/-- Advisory status text shown when every tracked stage is terminal. -/
def allDoneText : String := "All stages reported. Waiting for tooling shutdown..."

/-- Advisory status text shown while stages are still in progress. -/
def trackingText : String := "Tracking orchestration stages..."

/-- Status text shown while no snapshot feed is available. -/
def waitingText : String := "Waiting for progress snapshot feed..."

/-- Status text shown when the worker-done flag is observed. -/
def finishedText : String := "Tooling finished. Command center unlocking..."

/-- `ProgressBoardWidget._update_from_snapshot`: ingest the snapshot
stages, reconcile the registry and items, refresh the repo-index cache,
re-render the detail table for the current selection, and (for a non-empty
snapshot before completion) update the advisory status text. -/
def updateFromSnapshot (cwd : PyPath) (fs : FS) (st : BoardState)
    (snap : Snapshot) : BoardState :=
  let ingested := ingestStages snap.stages st.stageDefinitions st.items
  let r := reconcileStages snap.stages ingested.1 ingested.2 true
  let newCache := refreshStageRepoDetails cwd fs st.repoIndexCache snap.stages
  let newTable := updateDetailView newCache st.selectedStageId
  let newLabel :=
    if !snap.stages.isEmpty && !st.completionTriggered then
      (if r.2.2 then allDoneText else trackingText)
    else st.statusLabel
  { st with
      stageDefinitions := r.1
      items := r.2.1
      repoIndexCache := newCache
      detailTable := newTable
      statusLabel := newLabel }

/-- `ProgressBoardWidget._handle_completion`: a one-way gate — if already
triggered do nothing, else mark triggered, stop the poll timer, and emit
`board_completed` once. -/
def handleCompletion (st : BoardState) : BoardState :=
  if st.completionTriggered then st
  else
    { st with
        completionTriggered := true
        timerActive := false
        emitCount := st.emitCount + 1 }

/-- `ProgressBoardWidget._refresh_snapshot`, one timer tick: a missing
snapshot only (before completion) rewrites the status label; otherwise the
snapshot is merged and, when the worker-done flag is set and the gate has
not fired, the finish text is shown and completion is handled. -/
def refreshSnapshot (cwd : PyPath) (fs : FS) (st : BoardState)
    (snap : Option Snapshot) (workerDone : Bool) : BoardState :=
  match snap with
  | none =>
    if !st.completionTriggered then { st with statusLabel := waitingText }
    else st
  | some s =>
    let st1 := updateFromSnapshot cwd fs st s
    if workerDone && !st1.completionTriggered then
      handleCompletion { st1 with statusLabel := finishedText }
    else st1

/-- The observable input of one poll tick: the filesystem as seen this
tick, the loaded snapshot (or `none`), and the worker-done flag. -/
structure PollInput where
  fs : FS
  snap : Option Snapshot
  workerDone : Bool

/-- A sequence of poll ticks. -/
def runPolls (cwd : PyPath) (st : BoardState) : List PollInput → BoardState
  | [] => st
  | i :: rest => runPolls cwd (refreshSnapshot cwd i.fs st i.snap i.workerDone) rest

/-- `ProgressBoardWidget.__init__` and `_build_ui`, restricted to the
modelled state: record the initial definitions, create a checklist item
per definition, select the first item if any, and start the poll timer. -/
def initState (stageDefs : List (String × String)) : BoardState :=
  let registry := stageDefs.foldl
    (fun acc p => recordStageDefinition acc p.1 p.2) []
  let items := registry.foldl
    (fun acc p => ensureStageItem acc p.1 p.2) []
  { stageDefinitions := registry
    items := items
    repoIndexCache := []
    completionTriggered := false
    timerActive := true
    statusLabel := "Initializing orchestration tooling..."
    emitCount := 0
    selectedStageId := (items.head?).map Prod.fst
    detailTable := [] }

/-- `cli._current_stage_layout`: build the initial definitions from the
snapshot's stage records, trimming ids, skipping ids that are empty after
trimming, and defaulting blank titles to the id. -/
def currentStageLayout (snap : Option Snapshot) : List (String × String) :=
  match snap with
  | none => []
  | some s =>
    s.stages.filterMap (fun p =>
      let sid := pyStrip p.2.stage_id
      if sid == "" then none
      else
        let title :=
          if pyStrip p.2.title == "" then sid else pyStrip p.2.title
        some (sid, title))

/-- The terminal test `_apply_stage_state` performs on a raw status string
(after the `status or "pending"` default), stated standalone. -/
def statusTerminal (status : String) : Bool :=
  doneStatuses.contains (pyLower (if status == "" then "pending" else status))

/-- The effective status `_update_from_snapshot` uses for a registry id:
the snapshot record's status when present, else `"pending"`. -/
def effectiveStatus (stages : List (String × Stage)) (stageId : String) : String :=
  match dictGet stages stageId with
  | some so => so.status
  | none => "pending"

/-- Declarative restatement of the `all_done` accumulator: every registry
id whose checklist item exists has a terminal effective status. -/
def registryAllTerminal (stages : List (String × Stage))
    (items : List (String × ItemState)) (keyList : List String) : Bool :=
  keyList.all (fun sid =>
    match dictGet items sid with
    | none => true
    | some _ => statusTerminal (effectiveStatus stages sid))

/-- The effective title `_update_from_snapshot` uses for a registry entry:
the snapshot record's title when present, else the stored title. -/
def effectiveTitle (stages : List (String × Stage)) (stageId stored : String) :
    String :=
  match dictGet stages stageId with
  | some so => so.title
  | none => stored

/-- The effective messages `_update_from_snapshot` uses for a registry id:
the snapshot record's messages when present, else none. -/
def effectiveMessages (stages : List (String × Stage)) (stageId : String) :
    List String :=
  match dictGet stages stageId with
  | some so => so.messages
  | none => []

/-- The checklist-item contents the reconciler writes for a registry entry
(independent of the item's previous contents). -/
def expectedItem (stages : List (String × Stage)) (stageId stored : String) :
    ItemState :=
  (applyStageState { text := "", checkState := 0 }
    (effectiveTitle stages stageId stored) (effectiveStatus stages stageId)
    (effectiveMessages stages stageId)).1

/-- A registry/items pair already in post-reconcile form for the given
snapshot stages: every registry entry whose checklist item exists stores
the effective title, and its item holds the expected contents. -/
def Reconciled (stages : List (String × Stage))
    (defs : List (String × String)) (items : List (String × ItemState)) :
    Prop :=
  ∀ e ∈ defs, ∀ it, dictGet items e.1 = some it →
    e.2 = effectiveTitle stages e.1 e.2 ∧ it = expectedItem stages e.1 e.2


-- ## Concrete fixtures used to instantiate theorems with hypotheses

/-- The filesystem root, used as a trivial process working directory. -/
def rootPath : PyPath := { isAbs := true, segs := [] }

/-- A filesystem on which every stat and read fails. -/
def emptyFS : FS := { stat := fun _ => none, readPayload := fun _ => none }

/-- A concrete stage record. -/
def wStage (sid title status : String) (md : List (String × PyVal)) : Stage :=
  { stage_id := sid, title := title, status := status, messages := [],
    metadata := md }

/-- A one-stage snapshot with no repo-index metadata. -/
def wSnapA : Snapshot :=
  { stages := [("alpha", wStage "alpha" "Alpha" "completed" [])] }

/-- Stage metadata pointing at a repo-index file. -/
def wMeta : List (String × PyVal) :=
  [("repo_progress_index_path", .vstr "/data/dir/idx.json")]

/-- The parsed index path of `wMeta`. -/
def wIdxPath : PyPath := parsePath "/data/dir/idx.json"

/-- A repo-index payload declaring a relative `entries_dir` and one entry
with a relative `detail_path`. -/
def wPayload : List (String × PyVal) :=
  [("entries_dir", .vstr "../shared"),
   ("entries", .vlist [.vdict [("detail_path", .vstr "log.txt")]])]

/-- A filesystem serving `wPayload` at every path with mtime 5. -/
def wFS : FS :=
  { stat := fun _ => some 5, readPayload := fun _ => some wPayload }

/-- A process working directory distinct from the index file's parent. -/
def wCwd : PyPath := { isAbs := true, segs := ["work", "sub"] }

/-- A one-stage snapshot whose stage carries repo-index metadata. -/
def wSnapB : Snapshot :=
  { stages := [("alpha", wStage "alpha" "Alpha" "completed" wMeta)] }

/-- A cache entry whose recorded mtime matches what `wFS` reports. -/
def wCacheEntry : RepoIndexCacheEntry :=
  { path := wIdxPath, mtime := some 5, entries := [] }

-- ## Association-list lemmas

theorem dictGet_cons {α : Type} (p : String × α) (m : List (String × α))
    (k : String) :
    dictGet (p :: m) k = if p.1 == k then some p.2 else dictGet m k := by
  cases hb : p.1 == k <;> simp [dictGet, List.find?, hb]

theorem dictGet_append {α : Type} (m₁ m₂ : List (String × α)) (k : String) :
    dictGet (m₁ ++ m₂) k =
      match dictGet m₁ k with
      | some v => some v
      | none => dictGet m₂ k := by
  induction m₁ with
  | nil => simp [dictGet]
  | cons p m ih =>
    rw [List.cons_append, dictGet_cons, dictGet_cons]
    cases hb : p.1 == k <;> simp [hb, ih]

theorem dictGet_eq_none_iff {α : Type} (m : List (String × α)) (k : String) :
    dictGet m k = none ↔ k ∉ m.map Prod.fst := by
  induction m with
  | nil => simp [dictGet]
  | cons p m ih =>
    rw [dictGet_cons]
    cases hb : p.1 == k
    · have hne : ¬ k = p.1 := fun h => by simp [h] at hb
      simp [hb, ih, hne]
    · have he : p.1 = k := by simpa using hb
      simp [hb, he]

theorem dictGet_isSome_iff {α : Type} (m : List (String × α)) (k : String) :
    (dictGet m k).isSome = true ↔ k ∈ m.map Prod.fst := by
  cases hg : dictGet m k with
  | none => simpa [hg] using (dictGet_eq_none_iff m k).mp hg
  | some v =>
    have hmem : k ∈ m.map Prod.fst := by
      by_contra hmem
      rw [← dictGet_eq_none_iff] at hmem
      simp [hg] at hmem
    simp [hmem]

theorem dictGet_replace_self {α : Type} (m : List (String × α)) (k : String)
    (v : α) :
    dictGet (m.map (fun p => if p.1 == k then (k, v) else p)) k =
      if (dictGet m k).isSome then some v else none := by
  induction m with
  | nil => simp [dictGet]
  | cons p m ih =>
    by_cases hpk : p.1 = k
    · simp [dictGet_cons, hpk]
    · simp only [List.map_cons]
      rw [if_neg (by simpa using hpk)]
      rw [dictGet_cons, dictGet_cons]
      simpa [hpk] using ih

theorem dictGet_replace_other {α : Type} (m : List (String × α))
    (k k' : String) (v : α) (hne : ¬ k' = k) :
    dictGet (m.map (fun p => if p.1 == k then (k, v) else p)) k' =
      dictGet m k' := by
  have hne2 : ¬ k = k' := fun h => hne h.symm
  induction m with
  | nil => simp [dictGet]
  | cons p m ih =>
    by_cases hpk : p.1 = k
    · simp only [List.map_cons]
      rw [if_pos (by simpa using hpk)]
      rw [dictGet_cons, dictGet_cons]
      simpa [hpk, hne2] using ih
    · simp only [List.map_cons]
      rw [if_neg (by simpa using hpk)]
      rw [dictGet_cons, dictGet_cons]
      by_cases hpk2 : p.1 = k'
      · simp [hpk2]
      · simpa [hpk2] using ih

theorem dictGet_insert_self {α : Type} (m : List (String × α)) (k : String)
    (v : α) : dictGet (dictInsert m k v) k = some v := by
  unfold dictInsert
  cases hf : (m.find? (fun p => p.1 == k)).isSome
  · have hg : dictGet m k = none := by
      unfold dictGet
      cases hq : m.find? (fun p => p.1 == k) with
      | none => rfl
      | some q => rw [hq] at hf; simp at hf
    simp only [hf, Bool.false_eq_true, if_false]
    rw [dictGet_append, hg]
    rw [dictGet_cons]
    simp
  · have hg : (dictGet m k).isSome = true := by
      unfold dictGet
      cases hq : m.find? (fun p => p.1 == k) with
      | none => rw [hq] at hf; simp at hf
      | some q => simp
    simp only [hf, if_true]
    rw [dictGet_replace_self, hg]
    simp

theorem dictGet_insert_other {α : Type} (m : List (String × α))
    (k k' : String) (v : α) (hne : ¬ k' = k) :
    dictGet (dictInsert m k v) k' = dictGet m k' := by
  have hne2 : ¬ k = k' := fun h => hne h.symm
  unfold dictInsert
  cases hf : (m.find? (fun p => p.1 == k)).isSome
  · simp only [hf, Bool.false_eq_true, if_false]
    rw [dictGet_append]
    rw [dictGet_cons]
    have hc : dictGet [(k, v)] k' = (none : Option α) := by
      rw [dictGet_cons]
      simp [dictGet, hne2]
    cases hq : dictGet m k' <;> simp [hq, hne2, dictGet]
  · simp only [hf, if_true]
    exact dictGet_replace_other m k k' v hne

theorem dictGet_pop_self {α : Type} (m : List (String × α)) (k : String) :
    dictGet (dictPop m k) k = none := by
  induction m with
  | nil => simp [dictPop, dictGet]
  | cons p m ih =>
    unfold dictPop
    by_cases hpk : p.1 = k
    · rw [List.filter_cons_of_neg (by simpa using hpk)]
      exact ih
    · rw [List.filter_cons_of_pos (by simpa using hpk)]
      rw [dictGet_cons]
      have : dictGet (dictPop m k) k = none := ih
      unfold dictPop at this
      simpa [hpk] using this

theorem dictGet_pop_other {α : Type} (m : List (String × α)) (k k' : String)
    (hne : ¬ k' = k) :
    dictGet (dictPop m k) k' = dictGet m k' := by
  have hne2 : ¬ k = k' := fun h => hne h.symm
  induction m with
  | nil => simp [dictPop]
  | cons p m ih =>
    unfold dictPop
    by_cases hpk : p.1 = k
    · rw [List.filter_cons_of_neg (by simpa using hpk)]
      rw [dictGet_cons]
      have hc : (p.1 == k') = false := by
        simp [hpk]
        exact hne2
      simp only [hc, Bool.false_eq_true, if_false]
      have : dictGet (dictPop m k) k' = dictGet m k' := ih
      unfold dictPop at this
      exact this
    · rw [List.filter_cons_of_pos (by simpa using hpk)]
      rw [dictGet_cons, dictGet_cons]
      by_cases hpk2 : p.1 = k'
      · simp [hpk2]
      · have : dictGet (dictPop m k) k' = dictGet m k' := ih
        unfold dictPop at this
        simpa [hpk2] using this

theorem dictInsert_keys {α : Type} (m : List (String × α)) (k : String)
    (v : α) :
    (dictInsert m k v).map Prod.fst =
      if k ∈ m.map Prod.fst then m.map Prod.fst
      else m.map Prod.fst ++ [k] := by
  unfold dictInsert
  cases hf : (m.find? (fun p => p.1 == k)).isSome
  · have hmem : k ∉ m.map Prod.fst := by
      rw [← dictGet_isSome_iff]
      unfold dictGet
      cases hq : m.find? (fun p => p.1 == k) with
      | none => simp
      | some q => rw [hq] at hf; simp at hf
    simp [hf, hmem]
  · have hmem : k ∈ m.map Prod.fst := by
      rw [← dictGet_isSome_iff]
      unfold dictGet
      cases hq : m.find? (fun p => p.1 == k) with
      | none => rw [hq] at hf; simp at hf
      | some q => simp
    simp only [hf, if_true, if_pos hmem]
    rw [List.map_map]
    apply List.map_congr_left
    intro p _
    by_cases hpk : p.1 = k
    · simp [hpk]
    · simp [hpk]

theorem dictPop_keys_sublist {α : Type} (m : List (String × α)) (k : String) :
    ((dictPop m k).map Prod.fst).Sublist (m.map Prod.fst) :=
  (List.filter_sublist m).map Prod.fst

theorem prune_keys_sublist (cache : List (String × RepoIndexCacheEntry))
    (observedIds : List String) :
    ((pruneStaleRepoCache cache observedIds).map Prod.fst).Sublist
      (cache.map Prod.fst) :=
  (List.filter_sublist cache).map Prod.fst

theorem dictInsert_keys_nodup {α : Type} (m : List (String × α)) (k : String)
    (v : α) (hnd : (m.map Prod.fst).Nodup) :
    ((dictInsert m k v).map Prod.fst).Nodup := by
  rw [dictInsert_keys]
  by_cases hmem : k ∈ m.map Prod.fst
  · simpa [hmem] using hnd
  · simp only [hmem, if_false]
    rw [List.nodup_append]
    exact ⟨hnd, List.nodup_singleton k, by simpa using hmem⟩

theorem dictPop_keys_nodup {α : Type} (m : List (String × α)) (k : String)
    (hnd : (m.map Prod.fst).Nodup) : ((dictPop m k).map Prod.fst).Nodup :=
  (dictPop_keys_sublist m k).nodup hnd

theorem prune_keys_nodup (cache : List (String × RepoIndexCacheEntry))
    (observedIds : List String) (hnd : (cache.map Prod.fst).Nodup) :
    ((pruneStaleRepoCache cache observedIds).map Prod.fst).Nodup :=
  (prune_keys_sublist cache observedIds).nodup hnd

theorem map_replace_id {α : Type} (m : List (String × α)) (k : String)
    (v : α) (hmem : k ∉ m.map Prod.fst) :
    m.map (fun p => if p.1 == k then (k, v) else p) = m := by
  induction m with
  | nil => simp
  | cons p m ih =>
    have hpk : ¬ p.1 = k := by
      intro h
      exact hmem (by simp [h])
    simp only [List.map_cons]
    rw [if_neg (by simpa using hpk)]
    rw [ih (fun h => hmem (by simp [h]))]

theorem dictInsert_id {α : Type} (m : List (String × α)) (k : String)
    (v : α) (hnd : (m.map Prod.fst).Nodup) (hg : dictGet m k = some v) :
    dictInsert m k v = m := by
  induction m with
  | nil => simp [dictGet] at hg
  | cons p m ih =>
    rw [dictGet_cons] at hg
    by_cases hpk : p.1 = k
    · rw [if_pos (by simpa using hpk)] at hg
      have hv : p.2 = v := by simpa using hg
      have hrest : k ∉ m.map Prod.fst := by
        have := hnd
        rw [List.map_cons, List.nodup_cons] at this
        rw [← hpk]
        exact this.1
      unfold dictInsert
      have hf : (List.find? (fun q => q.1 == k) (p :: m)).isSome = true := by
        simp [List.find?, show (p.1 == k) = true by simpa using hpk]
      simp only [hf, if_true]
      simp only [List.map_cons]
      rw [if_pos (by simpa using hpk)]
      rw [map_replace_id m k v hrest]
      rw [← hpk, ← hv]
    · rw [if_neg (by simpa using hpk)] at hg
      have hnd2 : (m.map Prod.fst).Nodup := by
        rw [List.map_cons, List.nodup_cons] at hnd
        exact hnd.2
      have hmem : k ∈ m.map Prod.fst := by
        rw [← dictGet_isSome_iff, hg]
        rfl
      have hrec := ih hnd2 hg
      unfold dictInsert at hrec ⊢
      have hf2 : (List.find? (fun q => q.1 == k) m).isSome = true := by
        have := (dictGet_isSome_iff m k).mpr hmem
        unfold dictGet at this
        cases hq : m.find? (fun q => q.1 == k) with
        | none => rw [hq] at this; simp at this
        | some q => simp
      have hf : (List.find? (fun q => q.1 == k) (p :: m)).isSome = true := by
        simp [List.find?, show (p.1 == k) = false by simpa using hpk, hf2]
      simp only [hf, if_true]
      simp only [hf2, if_true] at hrec
      simp only [List.map_cons]
      rw [if_neg (by simpa using hpk)]
      rw [hrec]

theorem dictPop_id {α : Type} (m : List (String × α)) (k : String)
    (hg : dictGet m k = none) : dictPop m k = m := by
  rw [dictGet_eq_none_iff] at hg
  unfold dictPop
  rw [List.filter_eq_self]
  intro p hp
  have : ¬ p.1 = k := by
    intro h
    exact hg (by
      rw [← h]
      exact List.mem_map_of_mem Prod.fst hp)
  simpa using this

-- ## Registry and checklist-item lemmas

theorem record_find_self (defs : List (String × String)) (sid t : String) :
    (recordStageDefinition defs sid t).find? (fun e => e.1 == sid) =
      some (sid, t) := by
  induction defs with
  | nil => simp [recordStageDefinition, List.find?]
  | cons p rest ih =>
    match p with
    | (eid, etitle) =>
      by_cases hpk : eid = sid
      · rw [recordStageDefinition, if_pos (by simpa using hpk)]
        simp [List.find?]
      · rw [recordStageDefinition, if_neg (by simpa using hpk)]
        rw [List.find?]
        simp only [show (eid == sid) = false by simpa using hpk]
        exact ih

theorem record_find_other (defs : List (String × String)) (sid t k : String)
    (hne : ¬ sid = k) :
    (recordStageDefinition defs sid t).find? (fun e => e.1 == k) =
      defs.find? (fun e => e.1 == k) := by
  induction defs with
  | nil =>
    simp [recordStageDefinition, List.find?,
      show (sid == k) = false by simpa using hne]
  | cons p rest ih =>
    match p with
    | (eid, etitle) =>
      by_cases hpk : eid = sid
      · rw [recordStageDefinition, if_pos (by simpa using hpk)]
        rw [List.find?, List.find?]
        simp only [show (sid == k) = false by simpa using hne]
        simp only [show (eid == k) = false by
          rw [hpk]; simpa using hne]
      · rw [recordStageDefinition, if_neg (by simpa using hpk)]
        rw [List.find?, List.find?]
        cases hb : eid == k
        · exact ih
        · rfl

theorem record_id (defs : List (String × String)) (sid t : String)
    (h : defs.find? (fun e => e.1 == sid) = some (sid, t)) :
    recordStageDefinition defs sid t = defs := by
  induction defs with
  | nil => simp [List.find?] at h
  | cons p rest ih =>
    match p with
    | (eid, etitle) =>
      by_cases hpk : eid = sid
      · rw [List.find?] at h
        simp only [show (eid == sid) = true by simpa using hpk] at h
        have h1 : eid = sid ∧ etitle = t := by
          constructor
          · exact hpk
          · have := h
            simp at this
            exact this.2
        rw [recordStageDefinition, if_pos (by simpa using hpk)]
        rw [← h1.1, ← h1.2]
      · rw [List.find?] at h
        simp only [show (eid == sid) = false by simpa using hpk] at h
        rw [recordStageDefinition, if_neg (by simpa using hpk)]
        rw [ih h]

theorem record_keys (defs : List (String × String)) (sid t : String) :
    (recordStageDefinition defs sid t).map Prod.fst =
      if sid ∈ defs.map Prod.fst then defs.map Prod.fst
      else defs.map Prod.fst ++ [sid] := by
  induction defs with
  | nil => simp [recordStageDefinition]
  | cons p rest ih =>
    match p with
    | (eid, etitle) =>
      by_cases hpk : eid = sid
      · rw [recordStageDefinition, if_pos (by simpa using hpk)]
        simp [hpk]
      · rw [recordStageDefinition, if_neg (by simpa using hpk)]
        simp only [List.map_cons, ih]
        have : ¬ sid = eid := fun h => hpk h.symm
        by_cases hmem : sid ∈ rest.map Prod.fst
        · simp [hmem, this]
        · simp [hmem, this]

theorem record_mem (defs : List (String × String)) (sid t k : String)
    (h : k ∈ defs.map Prod.fst) :
    k ∈ (recordStageDefinition defs sid t).map Prod.fst := by
  rw [record_keys]
  by_cases hmem : sid ∈ defs.map Prod.fst
  · simpa [hmem] using h
  · simp only [hmem, if_false]
    exact List.mem_append_left _ h

theorem record_mem_self (defs : List (String × String)) (sid t : String) :
    sid ∈ (recordStageDefinition defs sid t).map Prod.fst := by
  rw [record_keys]
  by_cases hmem : sid ∈ defs.map Prod.fst
  · simp only [hmem, if_true]
  · simp [hmem]

theorem record_keys_nodup (defs : List (String × String)) (sid t : String)
    (hnd : (defs.map Prod.fst).Nodup) :
    ((recordStageDefinition defs sid t).map Prod.fst).Nodup := by
  rw [record_keys]
  by_cases hmem : sid ∈ defs.map Prod.fst
  · simpa [hmem] using hnd
  · simp only [hmem, if_false]
    rw [List.nodup_append]
    exact ⟨hnd, List.nodup_singleton sid, by simpa using hmem⟩

theorem ensure_id (items : List (String × ItemState)) (sid t : String)
    (h : (dictGet items sid).isSome = true) :
    ensureStageItem items sid t = items := by
  simp [ensureStageItem, h]

theorem ensure_get_self (items : List (String × ItemState)) (sid t : String) :
    (dictGet (ensureStageItem items sid t) sid).isSome = true := by
  unfold ensureStageItem
  cases hf : (dictGet items sid).isSome
  · simp only [Bool.false_eq_true, if_false]
    rw [dictGet_append]
    have hg : dictGet items sid = none := by
      cases hq : dictGet items sid
      · rfl
      · rw [hq] at hf; simp at hf
    rw [hg, dictGet_cons]
    simp
  · simpa using hf

theorem ensure_get_other (items : List (String × ItemState)) (sid t k : String)
    (hne : ¬ sid = k) :
    dictGet (ensureStageItem items sid t) k = dictGet items k := by
  unfold ensureStageItem
  cases hf : (dictGet items sid).isSome
  · simp only [Bool.false_eq_true, if_false]
    rw [dictGet_append]
    rw [dictGet_cons]
    simp only [show (sid == k) = false by simpa using hne]
    simp only [Bool.false_eq_true, if_false]
    cases hq : dictGet items k <;> simp [dictGet]
  · simp

theorem ensure_keys (items : List (String × ItemState)) (sid t : String) :
    (ensureStageItem items sid t).map Prod.fst =
      if (dictGet items sid).isSome then items.map Prod.fst
      else items.map Prod.fst ++ [sid] := by
  unfold ensureStageItem
  cases hf : (dictGet items sid).isSome <;> simp [hf]

theorem ensure_mem (items : List (String × ItemState)) (sid t k : String)
    (h : k ∈ items.map Prod.fst) :
    k ∈ (ensureStageItem items sid t).map Prod.fst := by
  rw [ensure_keys]
  cases hf : (dictGet items sid).isSome
  · simp only [Bool.false_eq_true, if_false]
    exact List.mem_append_left _ h
  · simpa using h

theorem ensure_keys_nodup (items : List (String × ItemState)) (sid t : String)
    (hnd : (items.map Prod.fst).Nodup) :
    ((ensureStageItem items sid t).map Prod.fst).Nodup := by
  rw [ensure_keys]
  cases hf : (dictGet items sid).isSome
  · simp only [Bool.false_eq_true, if_false]
    rw [List.nodup_append]
    refine ⟨hnd, List.nodup_singleton sid, ?_⟩
    have : sid ∉ items.map Prod.fst := by
      rw [← dictGet_isSome_iff, hf]
      simp
    simpa using this
  · simpa using hnd


-- ## Small facts about the stage-state update

theorem applyStageState_snd (item : ItemState) (title status : String)
    (messages : List String) :
    (applyStageState item title status messages).2 = statusTerminal status :=
  rfl

theorem applyStageState_fst_ignores_item (item item' : ItemState)
    (title status : String) (messages : List String) :
    (applyStageState item title status messages).1 =
      (applyStageState item' title status messages).1 :=
  rfl

theorem contains_iff_mem_str (l : List String) (a : String) :
    l.contains a = true ↔ a ∈ l := by
  induction l with
  | nil => simp
  | cons b bs ih => simp [List.contains]

-- ## C3

/-- C3: the stage-state update classifies a stage as terminal exactly when
its status, case-folded, is one of completed / attention / blocked; the
statuses running and pending (and every other unrecognised string) are
classified non-terminal. -/
theorem c3_terminal_iff_done_status (item : ItemState)
    (title status : String) (messages : List String) :
    ((applyStageState item title status messages).2 = true ↔
      pyLower status ∈ doneStatuses) ∧
    (applyStageState item title "running" messages).2 = false ∧
    (applyStageState item title "pending" messages).2 = false := by
  refine ⟨?_, by rw [applyStageState_snd]; decide,
    by rw [applyStageState_snd]; decide⟩
  rw [applyStageState_snd]
  unfold statusTerminal
  by_cases h : status = ""
  · subst h
    simp only [show (("" : String) == "") = true from rfl, if_true]
    decide
  · simp only [show (status == "") = false by simpa using h,
      Bool.false_eq_true, if_false]
    exact contains_iff_mem_str doneStatuses (pyLower status)

-- ## C10

/-- C10: the repo-entry normaliser is total — for every mapping it returns
an entry (missing or falsy fields fall back to defaults), so the None
check guarding its result in the entries loop never drops an element:
the loop keeps exactly one normalised entry per mapping element. -/
theorem c10_normalize_entry_total (cwd : PyPath) (entriesDir : PyPath) :
    (∀ entry : List (String × PyVal),
      (normalizeRepoEntry cwd entry entriesDir).isSome = true) ∧
    (∀ xs : List PyVal,
      (normalizeRepoEntries cwd (.vlist xs) entriesDir).length =
        (xs.filter (fun e =>
          match e with
          | .vdict _ => true
          | _ => false)).length) := by
  constructor
  · intro entry
    simp [normalizeRepoEntry]
  · intro xs
    induction xs with
    | nil => simp [normalizeRepoEntries]
    | cons e rest ih =>
      cases e <;>
        simp_all [normalizeRepoEntries, List.filterMap_cons, normalizeRepoEntry]

-- ## Frame lemmas for the poll step

theorem handleCompletion_frame (st : BoardState) :
    (handleCompletion st).stageDefinitions = st.stageDefinitions ∧
    (handleCompletion st).items = st.items ∧
    (handleCompletion st).repoIndexCache = st.repoIndexCache ∧
    (handleCompletion st).statusLabel = st.statusLabel ∧
    (handleCompletion st).selectedStageId = st.selectedStageId ∧
    (handleCompletion st).detailTable = st.detailTable := by
  unfold handleCompletion
  cases h : st.completionTriggered <;> simp

theorem handleCompletion_triggered (st : BoardState)
    (h : st.completionTriggered = false) :
    (handleCompletion st).completionTriggered = true ∧
    (handleCompletion st).timerActive = false ∧
    (handleCompletion st).emitCount = st.emitCount + 1 := by
  unfold handleCompletion
  simp [h]

theorem update_frame (cwd : PyPath) (fs : FS) (st : BoardState)
    (snap : Snapshot) :
    (updateFromSnapshot cwd fs st snap).completionTriggered =
        st.completionTriggered ∧
    (updateFromSnapshot cwd fs st snap).timerActive = st.timerActive ∧
    (updateFromSnapshot cwd fs st snap).emitCount = st.emitCount ∧
    (updateFromSnapshot cwd fs st snap).selectedStageId =
        st.selectedStageId := by
  unfold updateFromSnapshot
  simp

theorem update_defs_eq (cwd : PyPath) (fs : FS) (st : BoardState)
    (snap : Snapshot) :
    (updateFromSnapshot cwd fs st snap).stageDefinitions =
      (reconcileStages snap.stages
        (ingestStages snap.stages st.stageDefinitions st.items).1
        (ingestStages snap.stages st.stageDefinitions st.items).2 true).1 := by
  unfold updateFromSnapshot
  simp

theorem update_items_eq (cwd : PyPath) (fs : FS) (st : BoardState)
    (snap : Snapshot) :
    (updateFromSnapshot cwd fs st snap).items =
      (reconcileStages snap.stages
        (ingestStages snap.stages st.stageDefinitions st.items).1
        (ingestStages snap.stages st.stageDefinitions st.items).2 true).2.1 := by
  unfold updateFromSnapshot
  simp

theorem update_cache_eq (cwd : PyPath) (fs : FS) (st : BoardState)
    (snap : Snapshot) :
    (updateFromSnapshot cwd fs st snap).repoIndexCache =
      refreshStageRepoDetails cwd fs st.repoIndexCache snap.stages := by
  unfold updateFromSnapshot
  simp

theorem update_table_eq (cwd : PyPath) (fs : FS) (st : BoardState)
    (snap : Snapshot) :
    (updateFromSnapshot cwd fs st snap).detailTable =
      updateDetailView
        (refreshStageRepoDetails cwd fs st.repoIndexCache snap.stages)
        st.selectedStageId := by
  unfold updateFromSnapshot
  simp

theorem update_label_eq (cwd : PyPath) (fs : FS) (st : BoardState)
    (snap : Snapshot) :
    (updateFromSnapshot cwd fs st snap).statusLabel =
      if !snap.stages.isEmpty && !st.completionTriggered then
        (if (reconcileStages snap.stages
              (ingestStages snap.stages st.stageDefinitions st.items).1
              (ingestStages snap.stages st.stageDefinitions st.items).2
              true).2.2 then allDoneText
         else trackingText)
      else st.statusLabel := by
  unfold updateFromSnapshot
  simp

theorem refresh_some_eq (cwd : PyPath) (fs : FS) (st : BoardState)
    (snap : Snapshot) (workerDone : Bool) :
    refreshSnapshot cwd fs st (some snap) workerDone =
      (if workerDone &&
          !(updateFromSnapshot cwd fs st snap).completionTriggered then
        handleCompletion
          { updateFromSnapshot cwd fs st snap with statusLabel := finishedText }
      else updateFromSnapshot cwd fs st snap) :=
  rfl

theorem refresh_none_eq (cwd : PyPath) (fs : FS) (st : BoardState)
    (workerDone : Bool) :
    refreshSnapshot cwd fs st none workerDone =
      (if !st.completionTriggered then { st with statusLabel := waitingText }
       else st) :=
  rfl

theorem refresh_some_cache (cwd : PyPath) (fs : FS) (st : BoardState)
    (snap : Snapshot) (workerDone : Bool) :
    (refreshSnapshot cwd fs st (some snap) workerDone).repoIndexCache =
      refreshStageRepoDetails cwd fs st.repoIndexCache snap.stages := by
  rw [refresh_some_eq]
  split
  · rw [(handleCompletion_frame _).2.2.1]
    simpa using update_cache_eq cwd fs st snap
  · exact update_cache_eq cwd fs st snap

theorem refresh_some_defs (cwd : PyPath) (fs : FS) (st : BoardState)
    (snap : Snapshot) (workerDone : Bool) :
    (refreshSnapshot cwd fs st (some snap) workerDone).stageDefinitions =
      (updateFromSnapshot cwd fs st snap).stageDefinitions := by
  rw [refresh_some_eq]
  split
  · rw [(handleCompletion_frame _).1]
  · rfl

theorem refresh_none_frame (cwd : PyPath) (fs : FS) (st : BoardState)
    (workerDone : Bool) :
    (refreshSnapshot cwd fs st none workerDone).stageDefinitions =
        st.stageDefinitions ∧
    (refreshSnapshot cwd fs st none workerDone).items = st.items ∧
    (refreshSnapshot cwd fs st none workerDone).repoIndexCache =
        st.repoIndexCache ∧
    (refreshSnapshot cwd fs st none workerDone).detailTable =
        st.detailTable ∧
    (refreshSnapshot cwd fs st none workerDone).completionTriggered =
        st.completionTriggered ∧
    (refreshSnapshot cwd fs st none workerDone).timerActive =
        st.timerActive ∧
    (refreshSnapshot cwd fs st none workerDone).emitCount = st.emitCount ∧
    (refreshSnapshot cwd fs st none workerDone).selectedStageId =
        st.selectedStageId := by
  rw [refresh_none_eq]
  cases h : st.completionTriggered <;> simp [h]

theorem refresh_none_label (cwd : PyPath) (fs : FS) (st : BoardState)
    (workerDone : Bool) :
    (refreshSnapshot cwd fs st none workerDone).statusLabel =
      if st.completionTriggered then st.statusLabel else waitingText := by
  rw [refresh_none_eq]
  cases h : st.completionTriggered <;> simp [h]

-- ## C6

/-- C6: a poll on which the snapshot loader yields None leaves the stage
registry, the checklist items, the repo-index cache, the detail table, the
completion flag, the timer, the emission count and the selection untouched;
its only effect is the waiting-for-feed status text (set while completion
has not fired, left alone afterwards), and no completion check runs. -/
theorem c6_none_poll_is_frame (cwd : PyPath) (fs : FS) (st : BoardState)
    (workerDone : Bool) :
    (refreshSnapshot cwd fs st none workerDone).stageDefinitions =
        st.stageDefinitions ∧
    (refreshSnapshot cwd fs st none workerDone).items = st.items ∧
    (refreshSnapshot cwd fs st none workerDone).repoIndexCache =
        st.repoIndexCache ∧
    (refreshSnapshot cwd fs st none workerDone).detailTable =
        st.detailTable ∧
    (refreshSnapshot cwd fs st none workerDone).completionTriggered =
        st.completionTriggered ∧
    (refreshSnapshot cwd fs st none workerDone).timerActive =
        st.timerActive ∧
    (refreshSnapshot cwd fs st none workerDone).emitCount = st.emitCount ∧
    (st.completionTriggered = false →
      (refreshSnapshot cwd fs st none workerDone).statusLabel =
        waitingText) ∧
    (st.completionTriggered = true →
      (refreshSnapshot cwd fs st none workerDone).statusLabel =
        st.statusLabel) := by
  obtain ⟨h1, h2, h3, h4, h5, h6, h7, _⟩ := refresh_none_frame cwd fs st workerDone
  refine ⟨h1, h2, h3, h4, h5, h6, h7, ?_, ?_⟩
  · intro h
    rw [refresh_none_label, h]
    simp
  · intro h
    rw [refresh_none_label, h]
    simp

/-- Witness for C6 at a concrete state: one stage defined, worker flag set,
snapshot feed absent. -/
theorem c6_none_poll_is_frame_witness :
    (refreshSnapshot rootPath emptyFS (initState [("alpha", "Alpha")]) none
        true).items = (initState [("alpha", "Alpha")]).items ∧
    (refreshSnapshot rootPath emptyFS (initState [("alpha", "Alpha")]) none
        true).emitCount = 0 ∧
    (refreshSnapshot rootPath emptyFS (initState [("alpha", "Alpha")]) none
        true).statusLabel = waitingText :=
  ⟨(c6_none_poll_is_frame rootPath emptyFS (initState [("alpha", "Alpha")])
      true).2.1,
   (c6_none_poll_is_frame rootPath emptyFS (initState [("alpha", "Alpha")])
      true).2.2.2.2.2.2.1,
   (c6_none_poll_is_frame rootPath emptyFS (initState [("alpha", "Alpha")])
      true).2.2.2.2.2.2.2.1 (by rfl)⟩

-- ## C8

theorem prune_mem_observed (cache : List (String × RepoIndexCacheEntry))
    (obs : List String) (sid : String)
    (h : sid ∈ (pruneStaleRepoCache cache obs).map Prod.fst) : sid ∈ obs := by
  unfold pruneStaleRepoCache at h
  obtain ⟨p, hp, hfst⟩ := List.mem_map.mp h
  have hkeep := (List.mem_filter.mp hp).2
  rw [hfst] at hkeep
  exact (contains_iff_mem_str obs sid).mp hkeep

theorem refreshDetails_keys_sub (cwd : PyPath) (fs : FS)
    (cache : List (String × RepoIndexCacheEntry))
    (stages : List (String × Stage)) (sid : String)
    (h : sid ∈ (refreshStageRepoDetails cwd fs cache stages).map Prod.fst) :
    sid ∈ stages.map Prod.fst := by
  unfold refreshStageRepoDetails at h
  exact prune_mem_observed _ _ _ h

/-- C8: after a poll that processes a snapshot, every stage id keyed in the
repo-index cache was observed in that snapshot — ids absent from the
current snapshot are pruned on that very poll. -/
theorem c8_cache_pruned_to_snapshot (cwd : PyPath) (fs : FS)
    (st : BoardState) (snap : Snapshot) (workerDone : Bool) (sid : String)
    (h : sid ∈ (refreshSnapshot cwd fs st (some snap)
      workerDone).repoIndexCache.map Prod.fst) :
    sid ∈ snap.stages.map Prod.fst := by
  rw [refresh_some_cache] at h
  exact refreshDetails_keys_sub cwd fs _ _ _ h

/-- Witness for C8: a poll over a one-stage snapshot whose repo index loads
successfully leaves exactly that stage id in the cache. -/
theorem c8_cache_pruned_to_snapshot_witness :
    "alpha" ∈ (refreshSnapshot wCwd wFS (initState []) (some wSnapB)
        false).repoIndexCache.map Prod.fst ∧
    "alpha" ∈ wSnapB.stages.map Prod.fst :=
  ⟨by decide,
   c8_cache_pruned_to_snapshot wCwd wFS (initState []) wSnapB false "alpha"
     (by decide)⟩

-- ## C2

theorem ingestStages_nil (defs : List (String × String))
    (items : List (String × ItemState)) :
    ingestStages [] defs items = (defs, items) :=
  rfl

theorem ingestStages_cons (p : String × Stage) (pairs : List (String × Stage))
    (defs : List (String × String)) (items : List (String × ItemState)) :
    ingestStages (p :: pairs) defs items =
      ingestStages pairs (recordStageDefinition defs p.1 p.2.title)
        (ensureStageItem items p.1 p.2.title) :=
  rfl

theorem ingest_defs_mem (pairs : List (String × Stage))
    (defs : List (String × String)) (items : List (String × ItemState))
    (k : String) (h : k ∈ defs.map Prod.fst) :
    k ∈ (ingestStages pairs defs items).1.map Prod.fst := by
  induction pairs generalizing defs items with
  | nil => exact h
  | cons p rest ih =>
    rw [ingestStages_cons]
    exact ih _ _ (record_mem _ _ _ _ h)

theorem reconcile_keys (stages : List (String × Stage))
    (defs : List (String × String)) (items : List (String × ItemState))
    (b : Bool) :
    (reconcileStages stages defs items b).1.map Prod.fst =
      defs.map Prod.fst := by
  induction defs generalizing items b with
  | nil => rfl
  | cons p rest ih =>
    obtain ⟨sid, stored⟩ := p
    unfold reconcileStages
    cases h : dictGet items sid
    · simp [h, ih]
    · cases hso : dictGet stages sid <;> simp [h, hso, ih]

theorem refresh_defs_mem (cwd : PyPath) (i : PollInput) (st : BoardState)
    (sid : String) (h : sid ∈ st.stageDefinitions.map Prod.fst) :
    sid ∈ (refreshSnapshot cwd i.fs st i.snap
      i.workerDone).stageDefinitions.map Prod.fst := by
  cases hs : i.snap with
  | none =>
    rw [(refresh_none_frame cwd i.fs st i.workerDone).1]
    exact h
  | some s =>
    rw [refresh_some_defs, update_defs_eq, reconcile_keys]
    exact ingest_defs_mem _ _ _ _ h

/-- C2: a stage id present in the registry stays in the registry across any
further sequence of polls — no poll ever removes a registry entry, even
when later snapshots omit the stage. -/
theorem c2_registry_persistent (cwd : PyPath) (st : BoardState)
    (inputs : List PollInput) (sid : String)
    (h : sid ∈ st.stageDefinitions.map Prod.fst) :
    sid ∈ (runPolls cwd st inputs).stageDefinitions.map Prod.fst := by
  induction inputs generalizing st with
  | nil => exact h
  | cons i rest ih => exact ih _ (refresh_defs_mem cwd i st sid h)

/-- Witness for C2: a registry seeded with stage alpha still contains alpha
after a poll whose snapshot only mentions stage beta. -/
theorem c2_registry_persistent_witness :
    "alpha" ∈ (initState [("alpha", "Alpha")]).stageDefinitions.map
        Prod.fst ∧
    "alpha" ∈ (runPolls rootPath (initState [("alpha", "Alpha")])
      [{ fs := emptyFS,
         snap := some { stages := [("beta", wStage "beta" "Beta" "running" [])] },
         workerDone := false }]).stageDefinitions.map Prod.fst :=
  ⟨by decide,
   c2_registry_persistent rootPath (initState [("alpha", "Alpha")])
     [{ fs := emptyFS,
        snap := some { stages := [("beta", wStage "beta" "Beta" "running" [])] },
        workerDone := false }] "alpha" (by decide)⟩

-- ## C7

theorem record_not_mem_append (defs : List (String × String))
    (sid t : String) (h : ¬ sid ∈ defs.map Prod.fst) :
    recordStageDefinition defs sid t = defs ++ [(sid, t)] := by
  induction defs with
  | nil => rfl
  | cons p rest ih =>
    obtain ⟨eid, et⟩ := p
    have hne : ¬ eid = sid := fun he => h (by simp [he])
    have h2 : ¬ sid ∈ rest.map Prod.fst := fun hm => h (by simp [hm])
    unfold recordStageDefinition
    rw [if_neg (by simpa using hne)]
    rw [List.cons_append, ih h2]

theorem cli_layout_ids (s : Snapshot) (e : String × String)
    (h : e ∈ currentStageLayout (some s)) :
    ∃ p ∈ s.stages, e.1 = pyStrip p.2.stage_id ∧ e.1 ≠ "" := by
  unfold currentStageLayout at h
  obtain ⟨p, hp, hf⟩ := List.mem_filterMap.mp h
  refine ⟨p, hp, ?_⟩
  by_cases hsid : pyStrip p.2.stage_id = ""
  · simp [hsid] at hf
  · simp only [show (pyStrip p.2.stage_id == "") = false by simpa using hsid,
      Bool.false_eq_true, if_false, Option.some.injEq] at hf
    rw [← hf]
    exact ⟨rfl, hsid⟩

/-- C7 counterexample: recordDefinition accepts an id that is empty after
trimming — it creates a registry entry instead of ignoring it — and it
compares ids without trimming, so an id differing from an existing one only
by surrounding whitespace creates a second entry instead of updating the
first; ensureTracked likewise creates an item for the empty id. -/
theorem c7_counterexample :
    recordStageDefinition [] "" "Title" = [("", "Title")] ∧
    recordStageDefinition [("alpha", "A")] " alpha " "B" =
      [("alpha", "A"), (" alpha ", "B")] ∧
    (dictGet (ensureStageItem [] "" "Title") "").isSome = true := by
  refine ⟨rfl, by decide, by decide⟩

/-- C7 (amended): the registry operations compare stage ids case-sensitively
on the raw, untrimmed string — an id not already present verbatim is
appended as-is, whatever whitespace it carries — while trimming and the
rejection of ids that are empty after trimming happen upstream in the CLI
stage-layout builder, whose every output id is the trimmed, non-empty form
of a snapshot stage id. -/
theorem c7_ids_untrimmed_in_registry (defs : List (String × String))
    (sid t : String) (s : Snapshot) (e : String × String)
    (hmem : ¬ sid ∈ defs.map Prod.fst)
    (hcli : e ∈ currentStageLayout (some s)) :
    recordStageDefinition defs sid t = defs ++ [(sid, t)] ∧
    ∃ p ∈ s.stages, e.1 = pyStrip p.2.stage_id ∧ e.1 ≠ "" :=
  ⟨record_not_mem_append defs sid t hmem, cli_layout_ids s e hcli⟩

/-- Witness for C7: a whitespace-padded id is appended next to its trimmed
sibling, and the CLI layout of a snapshot with a padded stage id contains
only the trimmed id. -/
theorem c7_ids_untrimmed_in_registry_witness :
    recordStageDefinition [("alpha", "A")] " alpha " "B" =
      [("alpha", "A")] ++ [(" alpha ", "B")] ∧
    ∃ p ∈ ({ stages := [("g", wStage "  gamma " "G" "running" [])] } :
        Snapshot).stages,
      ("gamma", "G").1 = pyStrip p.2.stage_id ∧ ("gamma", "G").1 ≠ "" :=
  c7_ids_untrimmed_in_registry [("alpha", "A")] " alpha " "B"
    { stages := [("g", wStage "  gamma " "G" "running" [])] } ("gamma", "G")
    (by decide) (by decide)

-- ## C5

/-- C5 counterexample: for the index file at `/data/dir/idx.json` with
`entries_dir` of `../shared` and an entry whose `detail_path` is `log.txt`,
run from working directory `/work/sub`, the code resolves the detail path
to `/work/shared/log.txt` — against the process working directory — while
the claim prescribes the parent-relative `/data/dir/../shared/log.txt`
normalised, i.e. `/data/shared/log.txt`; the two differ. -/
theorem c5_counterexample :
    (loadRepoIndexPayload wCwd wFS [] "alpha" wMeta).map
        (fun ce => ce.entries.map (fun e => e.detail_path)) =
      some [some "/work/shared/log.txt"] ∧
    renderPath (resolvePath wCwd
        (pathJoin (pathParent wIdxPath) (parsePath "../shared/log.txt"))) =
      "/data/shared/log.txt" ∧
    ("/work/shared/log.txt" : String) ≠ "/data/shared/log.txt" := by
  refine ⟨by decide, by decide, by decide⟩

/-- C5 (amended): a non-empty string detail path is resolved by joining it
onto the entries directory (the declared non-blank `entries_dir` when
present, else the index file's parent) and then making the result absolute
against the process working directory; in the example, the resolved detail
path equals the working-directory resolution of `../shared/log.txt` — it
coincides with the parent-relative reading only when the process working
directory is the index file's parent. -/
theorem c5_detail_path_resolution (cwd dir : PyPath)
    (entry : List (String × PyVal)) (d : String)
    (hd : dictGet entry "detail_path" = some (.vstr d)) (hne : d ≠ "") :
    (∃ re, normalizeRepoEntry cwd entry dir = some re ∧
      re.detail_path =
        some (renderPath (resolvePath cwd (pathJoin dir (parsePath d))))) ∧
    (loadRepoIndexPayload wCwd wFS [] "alpha" wMeta).map
        (fun ce => ce.entries.map (fun e => e.detail_path)) =
      some [some (renderPath (resolvePath wCwd
        (parsePath "../shared/log.txt")))] ∧
    (loadRepoIndexPayload (pathParent wIdxPath) wFS [] "alpha" wMeta).map
        (fun ce => ce.entries.map (fun e => e.detail_path)) =
      some [some (renderPath (resolvePath (pathParent wIdxPath)
        (parsePath "../shared/log.txt")))] := by
  refine ⟨?_, by decide, by decide⟩
  refine ⟨_, rfl, ?_⟩
  simp only [normalizeRepoEntry, pyGet, hd]
  simp only [show (d == "") = false by simpa using hne, Bool.false_eq_true,
    if_false]

/-- Witness for C5 at a concrete entry mapping with a relative detail
path. -/
theorem c5_detail_path_resolution_witness :
    (∃ re,
      normalizeRepoEntry rootPath [("detail_path", PyVal.vstr "x")] rootPath =
        some re ∧
      re.detail_path =
        some (renderPath (resolvePath rootPath
          (pathJoin rootPath (parsePath "x"))))) ∧
    (loadRepoIndexPayload wCwd wFS [] "alpha" wMeta).map
        (fun ce => ce.entries.map (fun e => e.detail_path)) =
      some [some (renderPath (resolvePath wCwd
        (parsePath "../shared/log.txt")))] ∧
    (loadRepoIndexPayload (pathParent wIdxPath) wFS [] "alpha" wMeta).map
        (fun ce => ce.entries.map (fun e => e.detail_path)) =
      some [some (renderPath (resolvePath (pathParent wIdxPath)
        (parsePath "../shared/log.txt")))] :=
  c5_detail_path_resolution rootPath rootPath [("detail_path", PyVal.vstr "x")]
    "x" rfl (by decide)

-- ## C9

theorem list_all_congr {α : Type} (l : List α) (f g : α → Bool)
    (h : ∀ a ∈ l, f a = g a) : l.all f = l.all g := by
  induction l with
  | nil => rfl
  | cons x xs ih =>
    simp only [List.all_cons, h x (by simp)]
    rw [ih (fun a ha => h a (by simp [ha]))]

theorem registryAllTerminal_insert (stages : List (String × Stage))
    (items : List (String × ItemState)) (sid : String)
    (v item0 : ItemState) (h : dictGet items sid = some item0)
    (keyList : List String) :
    registryAllTerminal stages (dictInsert items sid v) keyList =
      registryAllTerminal stages items keyList := by
  unfold registryAllTerminal
  apply list_all_congr
  intro k _
  by_cases hk : k = sid
  · subst hk
    rw [dictGet_insert_self, h]
  · rw [dictGet_insert_other _ _ _ _ hk]

theorem reconcile_allDone (stages : List (String × Stage))
    (defs : List (String × String)) (items : List (String × ItemState))
    (b : Bool) :
    (reconcileStages stages defs items b).2.2 =
      (b && registryAllTerminal stages items (defs.map Prod.fst)) := by
  induction defs generalizing items b with
  | nil => simp [reconcileStages, registryAllTerminal]
  | cons p rest ih =>
    obtain ⟨sid, stored⟩ := p
    unfold reconcileStages
    cases h : dictGet items sid
    · rw [ih]
      simp [registryAllTerminal, h]
    · rw [ih]
      rw [registryAllTerminal_insert stages items sid _ _ h]
      simp only [registryAllTerminal, List.map_cons, List.all_cons, h]
      rw [applyStageState_snd]
      cases hso : dictGet stages sid <;>
        simp [hso, effectiveStatus, Bool.and_assoc]

theorem update_label_empty (cwd : PyPath) (fs : FS) (st : BoardState)
    (snap : Snapshot) (h : snap.stages = []) :
    (updateFromSnapshot cwd fs st snap).statusLabel = st.statusLabel := by
  rw [update_label_eq, h]
  simp

theorem refresh_some_post (cwd : PyPath) (fs : FS) (st : BoardState)
    (snap : Snapshot) (workerDone : Bool) :
    (refreshSnapshot cwd fs st (some snap) workerDone).emitCount =
      st.emitCount +
        (if workerDone && !st.completionTriggered then 1 else 0) ∧
    (refreshSnapshot cwd fs st (some snap) workerDone).completionTriggered =
      (st.completionTriggered || workerDone) ∧
    (refreshSnapshot cwd fs st (some snap) workerDone).timerActive =
      (if workerDone && !st.completionTriggered then false
       else st.timerActive) := by
  rw [refresh_some_eq]
  have h1 := (update_frame cwd fs st snap).1
  have h2 := (update_frame cwd fs st snap).2.1
  have h3 := (update_frame cwd fs st snap).2.2.1
  cases hw : workerDone <;> cases hct : st.completionTriggered <;>
    simp [handleCompletion, h1, h2, h3, hct, hw]

/-- C9 counterexample: with zero stages known (empty registry, empty
snapshot) and the worker-done flag set, a poll still fires the completion
event — completion is gated only on the flag, not on all_terminal being
determined. -/
theorem c9_counterexample :
    (initState []).stageDefinitions = [] ∧
    (refreshSnapshot rootPath emptyFS (initState [])
        (some { stages := [] }) true).emitCount = 1 := by
  refine ⟨rfl, by decide⟩

/-- C9 (amended): the all_done accumulator equals the AND over the registry
of per-stage terminal-ness (stages without a checklist item are skipped,
and it is vacuously true on an empty registry); a poll whose snapshot has
zero stages never shows the all-stages-reported advisory text (its status
label is left untouched by the merge); and the completion event itself is
driven solely by the worker-done flag — it fires exactly when the flag is
set and the gate is still armed, regardless of all_done or of how many
stages are known. -/
theorem c9_all_terminal_advisory (cwd : PyPath) (fs : FS) (st : BoardState)
    (snap : Snapshot) (workerDone : Bool)
    (stages : List (String × Stage)) (defs : List (String × String))
    (items : List (String × ItemState)) (hempty : snap.stages = []) :
    (reconcileStages stages defs items true).2.2 =
      registryAllTerminal stages items (defs.map Prod.fst) ∧
    (updateFromSnapshot cwd fs st snap).statusLabel = st.statusLabel ∧
    (refreshSnapshot cwd fs st (some snap) workerDone).emitCount =
      st.emitCount +
        (if workerDone && !st.completionTriggered then 1 else 0) := by
  refine ⟨?_, update_label_empty cwd fs st snap hempty,
    (refresh_some_post cwd fs st snap workerDone).1⟩
  rw [reconcile_allDone]
  simp

/-- Witness for C9 at an empty snapshot: the merge leaves the initial label
alone and the flagged poll emits once. -/
theorem c9_all_terminal_advisory_witness :
    (reconcileStages [] [("alpha", "Alpha")]
        [("alpha", { text := "t", checkState := 0 })] true).2.2 =
      registryAllTerminal []
        [("alpha", { text := "t", checkState := 0 })]
        ([("alpha", "Alpha")].map Prod.fst) ∧
    (updateFromSnapshot rootPath emptyFS (initState [("alpha", "Alpha")])
        { stages := [] }).statusLabel =
      (initState [("alpha", "Alpha")]).statusLabel ∧
    (refreshSnapshot rootPath emptyFS (initState [("alpha", "Alpha")])
        (some { stages := [] }) true).emitCount =
      (initState [("alpha", "Alpha")]).emitCount +
        (if true && !(initState [("alpha", "Alpha")]).completionTriggered
         then 1 else 0) :=
  c9_all_terminal_advisory rootPath emptyFS (initState [("alpha", "Alpha")])
    { stages := [] } true [] [("alpha", "Alpha")]
    [("alpha", { text := "t", checkState := 0 })] rfl

-- ## C1

theorem runPolls_cons (cwd : PyPath) (st : BoardState) (i : PollInput)
    (rest : List PollInput) :
    runPolls cwd st (i :: rest) =
      runPolls cwd (refreshSnapshot cwd i.fs st i.snap i.workerDone) rest :=
  rfl

theorem runPolls_triggered (cwd : PyPath) (st : BoardState)
    (l : List PollInput) (h : st.completionTriggered = true) :
    (runPolls cwd st l).emitCount = st.emitCount ∧
    (runPolls cwd st l).completionTriggered = true ∧
    (runPolls cwd st l).timerActive = st.timerActive := by
  induction l generalizing st with
  | nil => exact ⟨rfl, h, rfl⟩
  | cons i rest ih =>
    rw [runPolls_cons]
    cases hs : i.snap with
    | none =>
      obtain ⟨e1, e2, e3, e4, e5, e6, e7, e8⟩ :=
        refresh_none_frame cwd i.fs st i.workerDone
      obtain ⟨a1, a2, a3⟩ :=
        ih (refreshSnapshot cwd i.fs st none i.workerDone) (by rw [e5, h])
      exact ⟨by rw [a1, e7], a2, by rw [a3, e6]⟩
    | some s =>
      obtain ⟨p1, p2, p3⟩ := refresh_some_post cwd i.fs st s i.workerDone
      obtain ⟨a1, a2, a3⟩ :=
        ih (refreshSnapshot cwd i.fs st (some s) i.workerDone)
          (by rw [p2, h]; simp)
      refine ⟨by rw [a1, p1, h]; simp, a2, by rw [a3, p3, h]; simp⟩

/-- C1 counterexample: a poll made after the worker-done flag is set emits
nothing when the snapshot loader returns None — the completion check is
skipped on such polls — so the completion-event count can stay 0 for
arbitrarily many flagged polls, not 1. -/
theorem c1_counterexample :
    (runPolls rootPath (initState [])
        [{ fs := emptyFS, snap := none, workerDone := true }]).emitCount =
      0 ∧ (0 : Nat) ≠ 1 :=
  ⟨by decide, by decide⟩

/-- C1 (amended): starting from an armed gate with no emissions, over any
sequence of polls all made with the worker-done flag set, the completion
event is emitted exactly once if at least one of those polls observes a
snapshot and zero times otherwise (never more than once — polls after the
gate has fired are no-ops on it), and once fired the polling timer is
stopped and stays stopped. -/
theorem c1_gate_fires_once (cwd : PyPath) (st : BoardState)
    (inputs : List PollInput) (hstart : st.completionTriggered = false)
    (hemit : st.emitCount = 0)
    (hflag : inputs.all (fun i => i.workerDone) = true) :
    (runPolls cwd st inputs).emitCount =
      (if inputs.any (fun i => i.snap.isSome) then 1 else 0) ∧
    (inputs.any (fun i => i.snap.isSome) = true →
      (runPolls cwd st inputs).completionTriggered = true ∧
      (runPolls cwd st inputs).timerActive = false) := by
  induction inputs generalizing st with
  | nil =>
    refine ⟨by simpa using hemit, ?_⟩
    intro h
    simp at h
  | cons i rest ih =>
    rw [List.all_cons, Bool.and_eq_true] at hflag
    rw [runPolls_cons]
    cases hs : i.snap with
    | none =>
      obtain ⟨e1, e2, e3, e4, e5, e6, e7, e8⟩ :=
        refresh_none_frame cwd i.fs st i.workerDone
      have hrec := ih (refreshSnapshot cwd i.fs st none i.workerDone)
        (by rw [e5, hstart]) (by rw [e7, hemit]) hflag.2
      refine ⟨?_, ?_⟩
      · rw [hrec.1]
        simp [List.any_cons, hs]
      · intro h
        rw [List.any_cons] at h
        simp only [hs, Option.isSome_none, Bool.false_or] at h
        exact hrec.2 h
    | some s =>
      obtain ⟨p1, p2, p3⟩ := refresh_some_post cwd i.fs st s i.workerDone
      have hw : i.workerDone = true := hflag.1
      have hfire : (refreshSnapshot cwd i.fs st (some s)
          i.workerDone).completionTriggered = true := by
        rw [p2, hstart, hw]
        rfl
      obtain ⟨a1, a2, a3⟩ :=
        runPolls_triggered cwd
          (refreshSnapshot cwd i.fs st (some s) i.workerDone) rest hfire
      refine ⟨?_, fun _ => ⟨a2, ?_⟩⟩
      · rw [a1, p1, hstart, hemit, hw]
        simp [List.any_cons, hs]
      · rw [a3, p3, hstart, hw]
        rfl

/-- Witness for C1: one flagged poll that does observe a snapshot emits
exactly once and stops the timer. -/
theorem c1_gate_fires_once_witness :
    (runPolls rootPath (initState [("alpha", "Alpha")])
        [{ fs := emptyFS, snap := some { stages := [] },
           workerDone := true }]).emitCount =
      (if ([{ fs := emptyFS, snap := some ({ stages := [] } : Snapshot),
              workerDone := true }] : List PollInput).any
            (fun i => i.snap.isSome) then 1 else 0) ∧
    (([{ fs := emptyFS, snap := some ({ stages := [] } : Snapshot),
         workerDone := true }] : List PollInput).any
          (fun i => i.snap.isSome) = true →
      (runPolls rootPath (initState [("alpha", "Alpha")])
          [{ fs := emptyFS, snap := some { stages := [] },
             workerDone := true }]).completionTriggered = true ∧
      (runPolls rootPath (initState [("alpha", "Alpha")])
          [{ fs := emptyFS, snap := some { stages := [] },
             workerDone := true }]).timerActive = false) :=
  c1_gate_fires_once rootPath (initState [("alpha", "Alpha")])
    [{ fs := emptyFS, snap := some { stages := [] }, workerDone := true }]
    rfl rfl (by decide)

-- ## C4: cache-hit behaviour of the repo-index loader

theorem dictGet_of_nodup_mem {α : Type} (m : List (String × α))
    (k : String) (v : α) (hnd : (m.map Prod.fst).Nodup) (h : (k, v) ∈ m) :
    dictGet m k = some v := by
  induction m with
  | nil => simp at h
  | cons p rest ih =>
    rw [List.map_cons, List.nodup_cons] at hnd
    rcases List.mem_cons.mp h with h1 | h1
    · rw [← h1, dictGet_cons]
      simp
    · have hne : ¬ p.1 = k := by
        intro he
        exact hnd.1 (he ▸ (List.mem_map_of_mem Prod.fst h1))
      rw [dictGet_cons]
      simp only [show (p.1 == k) = false by simpa using hne,
        Bool.false_eq_true, if_false]
      exact ih hnd.2 h1

theorem find_exists_of_mem_keys {α : Type} (m : List (String × α))
    (k : String) (h : k ∈ m.map Prod.fst) :
    ∃ e, m.find? (fun q => q.1 == k) = some e := by
  have hs := (dictGet_isSome_iff m k).mpr h
  unfold dictGet at hs
  cases hq : m.find? (fun q => q.1 == k) with
  | none => rw [hq] at hs; simp at hs
  | some e => exact ⟨e, rfl⟩

theorem load_hit (cwd : PyPath) (fs : FS)
    (cache : List (String × RepoIndexCacheEntry)) (sid : String)
    (metadata : List (String × PyVal)) (m : Int) (c : RepoIndexCacheEntry)
    (ht : pyTruthy (pyGet metadata "repo_progress_index_path") = true)
    (hst : fs.stat (parsePath (pyStr
      (pyGet metadata "repo_progress_index_path"))) = some m)
    (hc : dictGet cache sid = some c) (hm : c.mtime = some m) :
    loadRepoIndexPayload cwd fs cache sid metadata = some c := by
  unfold loadRepoIndexPayload
  dsimp only
  rw [ht]
  simp only [Bool.not_true, Bool.false_eq_true, if_false]
  rw [hst, hc]
  dsimp only
  rw [hm]
  simp

theorem fresh_mtime (cwd : PyPath) (fs : FS) (indexPath : PyPath) (m : Int)
    (e : RepoIndexCacheEntry)
    (h : loadRepoIndexFresh cwd fs indexPath m = some e) :
    e.mtime = some m := by
  unfold loadRepoIndexFresh at h
  cases hr : fs.readPayload indexPath with
  | none => rw [hr] at h; simp at h
  | some payload =>
    rw [hr] at h
    simp only [Option.some.injEq] at h
    rw [← h]

theorem fresh_none_iff (cwd : PyPath) (fs : FS) (indexPath : PyPath)
    (m : Int) :
    loadRepoIndexFresh cwd fs indexPath m = none ↔
      fs.readPayload indexPath = none := by
  unfold loadRepoIndexFresh
  cases hr : fs.readPayload indexPath <;> simp

theorem load_some_char (cwd : PyPath) (fs : FS)
    (cache : List (String × RepoIndexCacheEntry)) (sid : String)
    (metadata : List (String × PyVal)) (e : RepoIndexCacheEntry)
    (h : loadRepoIndexPayload cwd fs cache sid metadata = some e) :
    pyTruthy (pyGet metadata "repo_progress_index_path") = true ∧
    ∃ m, fs.stat (parsePath (pyStr
        (pyGet metadata "repo_progress_index_path"))) = some m ∧
      e.mtime = some m := by
  unfold loadRepoIndexPayload at h
  dsimp only at h
  cases ht : pyTruthy (pyGet metadata "repo_progress_index_path")
  · rw [ht] at h
    simp at h
  · rw [ht] at h
    simp only [Bool.not_true, Bool.false_eq_true, if_false] at h
    refine ⟨rfl, ?_⟩
    cases hst : fs.stat (parsePath (pyStr
        (pyGet metadata "repo_progress_index_path"))) with
    | none => rw [hst] at h; simp at h
    | some m =>
      rw [hst] at h
      refine ⟨m, rfl, ?_⟩
      cases hc : dictGet cache sid with
      | none =>
        rw [hc] at h
        exact fresh_mtime cwd fs _ m e h
      | some c =>
        rw [hc] at h
        dsimp only at h
        cases hbm : c.mtime == some m
        · rw [hbm] at h
          simp only [Bool.false_eq_true, if_false] at h
          exact fresh_mtime cwd fs _ m e h
        · rw [hbm] at h
          simp only [if_true] at h
          have hce : c = e := by simpa using h
          have hcm : c.mtime = some m := by simpa using hbm
          rw [← hce]
          exact hcm


theorem load_none_char (cwd : PyPath) (fs : FS)
    (cache : List (String × RepoIndexCacheEntry)) (sid : String)
    (metadata : List (String × PyVal))
    (h : loadRepoIndexPayload cwd fs cache sid metadata = none) :
    pyTruthy (pyGet metadata "repo_progress_index_path") = false ∨
    fs.stat (parsePath (pyStr
      (pyGet metadata "repo_progress_index_path"))) = none ∨
    fs.readPayload (parsePath (pyStr
      (pyGet metadata "repo_progress_index_path"))) = none := by
  unfold loadRepoIndexPayload at h
  dsimp only at h
  cases ht : pyTruthy (pyGet metadata "repo_progress_index_path")
  · exact Or.inl rfl
  · rw [ht] at h
    simp only [Bool.not_true, Bool.false_eq_true, if_false] at h
    cases hst : fs.stat (parsePath (pyStr
        (pyGet metadata "repo_progress_index_path"))) with
    | none => exact Or.inr (Or.inl rfl)
    | some m =>
      rw [hst] at h
      dsimp only at h
      refine Or.inr (Or.inr ?_)
      cases hc : dictGet cache sid with
      | none =>
        rw [hc] at h
        dsimp only at h
        exact (fresh_none_iff cwd fs _ m).mp h
      | some c =>
        rw [hc] at h
        dsimp only at h
        cases hbm : c.mtime == some m
        · rw [hbm] at h
          simp only [Bool.false_eq_true, if_false] at h
          exact (fresh_none_iff cwd fs _ m).mp h
        · rw [hbm] at h
          simp at h

theorem load_miss_readfail (cwd : PyPath) (fs : FS)
    (cache : List (String × RepoIndexCacheEntry)) (sid : String)
    (metadata : List (String × PyVal)) (m : Int)
    (ht : pyTruthy (pyGet metadata "repo_progress_index_path") = true)
    (hst : fs.stat (parsePath (pyStr
      (pyGet metadata "repo_progress_index_path"))) = some m)
    (hc : dictGet cache sid = none)
    (hr : fs.readPayload (parsePath (pyStr
      (pyGet metadata "repo_progress_index_path"))) = none) :
    loadRepoIndexPayload cwd fs cache sid metadata = none := by
  unfold loadRepoIndexPayload
  dsimp only
  rw [ht]
  simp only [Bool.not_true, Bool.false_eq_true, if_false]
  rw [hst, hc]
  dsimp only
  exact (fresh_none_iff cwd fs _ m).mpr hr

theorem load_falsy (cwd : PyPath) (fs : FS)
    (cache : List (String × RepoIndexCacheEntry)) (sid : String)
    (metadata : List (String × PyVal))
    (ht : pyTruthy (pyGet metadata "repo_progress_index_path") = false) :
    loadRepoIndexPayload cwd fs cache sid metadata = none := by
  unfold loadRepoIndexPayload
  dsimp only
  rw [ht]
  simp

theorem load_statfail (cwd : PyPath) (fs : FS)
    (cache : List (String × RepoIndexCacheEntry)) (sid : String)
    (metadata : List (String × PyVal))
    (ht : pyTruthy (pyGet metadata "repo_progress_index_path") = true)
    (hst : fs.stat (parsePath (pyStr
      (pyGet metadata "repo_progress_index_path"))) = none) :
    loadRepoIndexPayload cwd fs cache sid metadata = none := by
  unfold loadRepoIndexPayload
  dsimp only
  rw [ht]
  simp only [Bool.not_true, Bool.false_eq_true, if_false]
  rw [hst]

-- ## C4: cache fold and prune lemmas

theorem cacheStep_get_other (cwd : PyPath) (fs : FS)
    (cache : List (String × RepoIndexCacheEntry)) (p : String × Stage)
    (k : String) (hne : ¬ k = p.1) :
    dictGet (cacheStep cwd fs cache p) k = dictGet cache k := by
  unfold cacheStep
  cases h : loadRepoIndexPayload cwd fs cache p.1 p.2.metadata
  · exact dictGet_pop_other cache p.1 k hne
  · exact dictGet_insert_other cache p.1 k _ hne

theorem cacheFold_get_other (cwd : PyPath) (fs : FS)
    (cache : List (String × RepoIndexCacheEntry))
    (pairs : List (String × Stage)) (k : String)
    (h : ∀ q ∈ pairs, ¬ k = q.1) :
    dictGet (pairs.foldl (cacheStep cwd fs) cache) k = dictGet cache k := by
  induction pairs generalizing cache with
  | nil => rfl
  | cons q rest ih =>
    rw [List.foldl_cons]
    rw [ih _ (fun r hr => h r (List.mem_cons_of_mem q hr))]
    exact cacheStep_get_other cwd fs cache q k (h q (List.mem_cons_self q rest))

theorem cacheStep_keys_nodup (cwd : PyPath) (fs : FS)
    (cache : List (String × RepoIndexCacheEntry)) (p : String × Stage)
    (hnd : (cache.map Prod.fst).Nodup) :
    ((cacheStep cwd fs cache p).map Prod.fst).Nodup := by
  unfold cacheStep
  cases h : loadRepoIndexPayload cwd fs cache p.1 p.2.metadata
  · exact dictPop_keys_nodup cache p.1 hnd
  · exact dictInsert_keys_nodup cache p.1 _ hnd

theorem cacheFold_keys_nodup (cwd : PyPath) (fs : FS)
    (cache : List (String × RepoIndexCacheEntry))
    (pairs : List (String × Stage)) (hnd : (cache.map Prod.fst).Nodup) :
    ((pairs.foldl (cacheStep cwd fs) cache).map Prod.fst).Nodup := by
  induction pairs generalizing cache with
  | nil => exact hnd
  | cons q rest ih =>
    rw [List.foldl_cons]
    exact ih _ (cacheStep_keys_nodup cwd fs cache q hnd)

theorem refreshDetails_keys_nodup (cwd : PyPath) (fs : FS)
    (cache : List (String × RepoIndexCacheEntry))
    (pairs : List (String × Stage)) (hnd : (cache.map Prod.fst).Nodup) :
    ((refreshStageRepoDetails cwd fs cache pairs).map Prod.fst).Nodup := by
  unfold refreshStageRepoDetails
  exact prune_keys_nodup _ _ (cacheFold_keys_nodup cwd fs cache pairs hnd)

theorem prune_get_of_mem (cache : List (String × RepoIndexCacheEntry))
    (obs : List String) (k : String) (h : k ∈ obs) :
    dictGet (pruneStaleRepoCache cache obs) k = dictGet cache k := by
  induction cache with
  | nil => rfl
  | cons p rest ih =>
    unfold pruneStaleRepoCache
    by_cases hk : p.1 = k
    · have hkeep : obs.contains p.1 = true := by
        rw [hk]
        exact (contains_iff_mem_str obs k).mpr h
      rw [List.filter_cons_of_pos (by simpa using hkeep)]
      rw [dictGet_cons, dictGet_cons]
      unfold pruneStaleRepoCache at ih
      simp only [show (p.1 == k) = true by simpa using hk, if_true]
    · cases hkeep : obs.contains p.1
      · rw [List.filter_cons_of_neg (by simpa using hkeep)]
        rw [dictGet_cons]
        simp only [show (p.1 == k) = false by simpa using hk,
          Bool.false_eq_true, if_false]
        unfold pruneStaleRepoCache at ih
        exact ih
      · rw [List.filter_cons_of_pos (by simpa using hkeep)]
        rw [dictGet_cons, dictGet_cons]
        simp only [show (p.1 == k) = false by simpa using hk,
          Bool.false_eq_true, if_false]
        unfold pruneStaleRepoCache at ih
        exact ih

theorem prune_idem (cache : List (String × RepoIndexCacheEntry))
    (obs : List String) :
    pruneStaleRepoCache (pruneStaleRepoCache cache obs) obs =
      pruneStaleRepoCache cache obs := by
  unfold pruneStaleRepoCache
  rw [List.filter_filter]
  simp

theorem cacheFold_post (cwd : PyPath) (fs : FS)
    (cache : List (String × RepoIndexCacheEntry))
    (pairs : List (String × Stage)) (hsn : (pairs.map Prod.fst).Nodup) :
    ∀ p ∈ pairs,
      (dictGet (pairs.foldl (cacheStep cwd fs) cache) p.1 = none ∧
        (pyTruthy (pyGet p.2.metadata "repo_progress_index_path") = false ∨
         fs.stat (parsePath (pyStr
           (pyGet p.2.metadata "repo_progress_index_path"))) = none ∨
         fs.readPayload (parsePath (pyStr
           (pyGet p.2.metadata "repo_progress_index_path"))) = none)) ∨
      (∃ e m,
        dictGet (pairs.foldl (cacheStep cwd fs) cache) p.1 = some e ∧
        pyTruthy (pyGet p.2.metadata "repo_progress_index_path") = true ∧
        fs.stat (parsePath (pyStr
          (pyGet p.2.metadata "repo_progress_index_path"))) = some m ∧
        e.mtime = some m) := by
  induction pairs generalizing cache with
  | nil => simp
  | cons q rest ih =>
    intro p hp
    rw [List.map_cons, List.nodup_cons] at hsn
    rw [List.foldl_cons]
    rcases List.mem_cons.mp hp with h1 | h1
    · subst h1
      have hrest : ∀ r ∈ rest, ¬ p.1 = r.1 := by
        intro r hr he
        exact hsn.1 (he ▸ (List.mem_map_of_mem Prod.fst hr))
      have hother :
          dictGet (rest.foldl (cacheStep cwd fs) (cacheStep cwd fs cache p))
              p.1 =
            dictGet (cacheStep cwd fs cache p) p.1 :=
        cacheFold_get_other cwd fs _ rest p.1 hrest
      unfold cacheStep at hother ⊢
      cases hload : loadRepoIndexPayload cwd fs cache p.1 p.2.metadata with
      | none =>
        rw [hload] at hother
        refine Or.inl ⟨?_, load_none_char cwd fs cache p.1 p.2.metadata hload⟩
        rw [hother]
        exact dictGet_pop_self cache p.1
      | some e =>
        rw [hload] at hother
        obtain ⟨ht, m, hst, hm⟩ :=
          load_some_char cwd fs cache p.1 p.2.metadata e hload
        refine Or.inr ⟨e, m, ?_, ht, hst, hm⟩
        rw [hother]
        exact dictGet_insert_self cache p.1 e
    · exact ih (cacheStep cwd fs cache q) hsn.2 p h1

theorem refreshDetails_post (cwd : PyPath) (fs : FS)
    (cache : List (String × RepoIndexCacheEntry))
    (pairs : List (String × Stage)) (hsn : (pairs.map Prod.fst).Nodup) :
    ∀ p ∈ pairs,
      (dictGet (refreshStageRepoDetails cwd fs cache pairs) p.1 = none ∧
        (pyTruthy (pyGet p.2.metadata "repo_progress_index_path") = false ∨
         fs.stat (parsePath (pyStr
           (pyGet p.2.metadata "repo_progress_index_path"))) = none ∨
         fs.readPayload (parsePath (pyStr
           (pyGet p.2.metadata "repo_progress_index_path"))) = none)) ∨
      (∃ e m,
        dictGet (refreshStageRepoDetails cwd fs cache pairs) p.1 = some e ∧
        pyTruthy (pyGet p.2.metadata "repo_progress_index_path") = true ∧
        fs.stat (parsePath (pyStr
          (pyGet p.2.metadata "repo_progress_index_path"))) = some m ∧
        e.mtime = some m) := by
  intro p hp
  have hmem : p.1 ∈ pairs.map Prod.fst := List.mem_map_of_mem Prod.fst hp
  have hget :
      dictGet (refreshStageRepoDetails cwd fs cache pairs) p.1 =
        dictGet (pairs.foldl (cacheStep cwd fs) cache) p.1 := by
    unfold refreshStageRepoDetails
    exact prune_get_of_mem _ _ p.1 hmem
  rw [hget]
  exact cacheFold_post cwd fs cache pairs hsn p hp

theorem foldl_id {α β : Type} (f : α → β → α) (a : α) (l : List β)
    (h : ∀ b ∈ l, f a b = a) : l.foldl f a = a := by
  induction l with
  | nil => rfl
  | cons x xs ih =>
    rw [List.foldl_cons, h x (List.mem_cons_self x xs)]
    exact ih (fun b hb => h b (List.mem_cons_of_mem x hb))

theorem refreshDetails_idem (cwd : PyPath) (fs : FS)
    (cache : List (String × RepoIndexCacheEntry))
    (pairs : List (String × Stage)) (hsn : (pairs.map Prod.fst).Nodup)
    (hnd : (cache.map Prod.fst).Nodup) :
    refreshStageRepoDetails cwd fs
        (refreshStageRepoDetails cwd fs cache pairs) pairs =
      refreshStageRepoDetails cwd fs cache pairs := by
  have hndC := refreshDetails_keys_nodup cwd fs cache pairs hnd
  have hstep : ∀ p ∈ pairs,
      cacheStep cwd fs (refreshStageRepoDetails cwd fs cache pairs) p =
        refreshStageRepoDetails cwd fs cache pairs := by
    intro p hp
    rcases refreshDetails_post cwd fs cache pairs hsn p hp with
      ⟨hget, hreason⟩ | ⟨e, m, hget, ht, hst, hm⟩
    · unfold cacheStep
      cases htr : pyTruthy (pyGet p.2.metadata "repo_progress_index_path")
      · rw [load_falsy cwd fs _ p.1 p.2.metadata htr]
        exact dictPop_id _ _ hget
      · cases hstat : fs.stat (parsePath (pyStr
            (pyGet p.2.metadata "repo_progress_index_path"))) with
        | none =>
          rw [load_statfail cwd fs _ p.1 p.2.metadata htr hstat]
          exact dictPop_id _ _ hget
        | some m2 =>
          have hread : fs.readPayload (parsePath (pyStr
              (pyGet p.2.metadata "repo_progress_index_path"))) = none := by
            rcases hreason with hr | hr | hr
            · rw [htr] at hr; simp at hr
            · rw [hstat] at hr; simp at hr
            · exact hr
          rw [load_miss_readfail cwd fs _ p.1 p.2.metadata m2 htr hstat
            hget hread]
          exact dictPop_id _ _ hget
    · unfold cacheStep
      rw [load_hit cwd fs _ p.1 p.2.metadata m e ht hst hget hm]
      exact dictInsert_id _ _ _ hndC hget
  have hfold :
      pairs.foldl (cacheStep cwd fs)
          (refreshStageRepoDetails cwd fs cache pairs) =
        refreshStageRepoDetails cwd fs cache pairs :=
    foldl_id (cacheStep cwd fs) _ pairs hstep
  show pruneStaleRepoCache
      (pairs.foldl (cacheStep cwd fs)
        (refreshStageRepoDetails cwd fs cache pairs))
      (pairs.map Prod.fst) = refreshStageRepoDetails cwd fs cache pairs
  rw [hfold]
  show pruneStaleRepoCache
      (pruneStaleRepoCache (pairs.foldl (cacheStep cwd fs) cache)
        (pairs.map Prod.fst))
      (pairs.map Prod.fst) = _
  rw [prune_idem]
  rfl

-- ## C4: ingest fixpoint lemmas

theorem ensure_isSome_mono (items : List (String × ItemState))
    (sid t k : String) (h : (dictGet items k).isSome = true) :
    (dictGet (ensureStageItem items sid t) k).isSome = true := by
  by_cases hk : sid = k
  · subst hk
    exact ensure_get_self items sid t
  · rw [ensure_get_other items sid t k hk]
    exact h

theorem ingest_items_isSome_mono (pairs : List (String × Stage))
    (defs : List (String × String)) (items : List (String × ItemState))
    (k : String) (h : (dictGet items k).isSome = true) :
    (dictGet (ingestStages pairs defs items).2 k).isSome = true := by
  induction pairs generalizing defs items with
  | nil => exact h
  | cons q rest ih =>
    rw [ingestStages_cons]
    exact ih _ _ (ensure_isSome_mono items q.1 q.2.title k h)

theorem ingest_items_isSome_self (pairs : List (String × Stage))
    (defs : List (String × String)) (items : List (String × ItemState)) :
    ∀ p ∈ pairs,
      (dictGet (ingestStages pairs defs items).2 p.1).isSome = true := by
  induction pairs generalizing defs items with
  | nil => simp
  | cons q rest ih =>
    intro p hp
    rw [ingestStages_cons]
    rcases List.mem_cons.mp hp with h1 | h1
    · subst h1
      exact ingest_items_isSome_mono rest _ _ p.1
        (ensure_get_self items p.1 p.2.title)
    · exact ih _ _ p h1

theorem ingest_find_frozen (pairs : List (String × Stage))
    (defs : List (String × String)) (items : List (String × ItemState))
    (sid : String) (h : ∀ q ∈ pairs, ¬ q.1 = sid) :
    (ingestStages pairs defs items).1.find? (fun e => e.1 == sid) =
      defs.find? (fun e => e.1 == sid) := by
  induction pairs generalizing defs items with
  | nil => rfl
  | cons q rest ih =>
    rw [ingestStages_cons]
    rw [ih _ _ (fun r hr => h r (List.mem_cons_of_mem q hr))]
    exact record_find_other defs q.1 q.2.title sid
      (h q (List.mem_cons_self q rest))

theorem ingest_find_self (pairs : List (String × Stage))
    (defs : List (String × String)) (items : List (String × ItemState))
    (hnd : (pairs.map Prod.fst).Nodup) :
    ∀ p ∈ pairs,
      (ingestStages pairs defs items).1.find? (fun e => e.1 == p.1) =
        some (p.1, p.2.title) := by
  induction pairs generalizing defs items with
  | nil => simp
  | cons q rest ih =>
    intro p hp
    rw [List.map_cons, List.nodup_cons] at hnd
    rw [ingestStages_cons]
    rcases List.mem_cons.mp hp with h1 | h1
    · subst h1
      have hrest : ∀ r ∈ rest, ¬ r.1 = p.1 := by
        intro r hr he
        exact hnd.1 (he ▸ (List.mem_map_of_mem Prod.fst hr))
      rw [ingest_find_frozen rest _ _ p.1 hrest]
      exact record_find_self defs p.1 p.2.title
    · exact ih _ _ hnd.2 p h1

theorem ingest_defs_nodup (pairs : List (String × Stage))
    (defs : List (String × String)) (items : List (String × ItemState))
    (hnd : (defs.map Prod.fst).Nodup) :
    ((ingestStages pairs defs items).1.map Prod.fst).Nodup := by
  induction pairs generalizing defs items with
  | nil => exact hnd
  | cons q rest ih =>
    rw [ingestStages_cons]
    exact ih _ _ (record_keys_nodup defs q.1 q.2.title hnd)

theorem ingest_items_nodup (pairs : List (String × Stage))
    (defs : List (String × String)) (items : List (String × ItemState))
    (hnd : (items.map Prod.fst).Nodup) :
    ((ingestStages pairs defs items).2.map Prod.fst).Nodup := by
  induction pairs generalizing defs items with
  | nil => exact hnd
  | cons q rest ih =>
    rw [ingestStages_cons]
    exact ih _ _ (ensure_keys_nodup items q.1 q.2.title hnd)

theorem ingest_id (pairs : List (String × Stage))
    (defs : List (String × String)) (items : List (String × ItemState))
    (h : ∀ p ∈ pairs,
      defs.find? (fun e => e.1 == p.1) = some (p.1, p.2.title) ∧
      (dictGet items p.1).isSome = true) :
    ingestStages pairs defs items = (defs, items) := by
  induction pairs with
  | nil => rfl
  | cons q rest ih =>
    rw [ingestStages_cons]
    rw [record_id defs q.1 q.2.title (h q (List.mem_cons_self q rest)).1]
    rw [ensure_id items q.1 q.2.title (h q (List.mem_cons_self q rest)).2]
    exact ih (fun p hp => h p (List.mem_cons_of_mem q hp))

-- ## C4: reconcile fixpoint lemmas

theorem isSome_of_keys_eq {α β : Type} (m1 : List (String × α))
    (m2 : List (String × β)) (k : String)
    (hk : m1.map Prod.fst = m2.map Prod.fst)
    (h : (dictGet m1 k).isSome = true) : (dictGet m2 k).isSome = true := by
  rw [dictGet_isSome_iff] at h ⊢
  rw [← hk]
  exact h

theorem registryAllTerminal_congr (stages : List (String × Stage))
    (items1 items2 : List (String × ItemState)) (keyList : List String)
    (hk : items1.map Prod.fst = items2.map Prod.fst) :
    registryAllTerminal stages items1 keyList =
      registryAllTerminal stages items2 keyList := by
  unfold registryAllTerminal
  apply list_all_congr
  intro k _
  cases h1 : dictGet items1 k with
  | none =>
    cases h2 : dictGet items2 k with
    | none => rfl
    | some v =>
      have hs := isSome_of_keys_eq items2 items1 k hk.symm (by rw [h2]; rfl)
      rw [h1] at hs
      simp at hs
  | some v =>
    cases h2 : dictGet items2 k with
    | none =>
      have hs := isSome_of_keys_eq items1 items2 k hk (by rw [h1]; rfl)
      rw [h2] at hs
      simp at hs
    | some w => rfl

theorem reconcile_items_keys (stages : List (String × Stage))
    (defs : List (String × String)) (items : List (String × ItemState))
    (b : Bool) :
    (reconcileStages stages defs items b).2.1.map Prod.fst =
      items.map Prod.fst := by
  induction defs generalizing items b with
  | nil => rfl
  | cons p rest ih =>
    obtain ⟨sid, stored⟩ := p
    unfold reconcileStages
    cases h : dictGet items sid
    · simp [h, ih]
    · have hmem : sid ∈ items.map Prod.fst :=
        (dictGet_isSome_iff items sid).mp (by rw [h]; rfl)
      cases hso : dictGet stages sid <;>
        simp [h, hso, ih, dictInsert_keys, hmem]

theorem reconcile_items_get_other (stages : List (String × Stage))
    (defs : List (String × String)) (items : List (String × ItemState))
    (b : Bool) (k : String) (h : ∀ q ∈ defs, ¬ q.1 = k) :
    dictGet (reconcileStages stages defs items b).2.1 k = dictGet items k := by
  induction defs generalizing items b with
  | nil => rfl
  | cons p rest ih =>
    obtain ⟨sid, stored⟩ := p
    have hne : ¬ sid = k := h (sid, stored) (List.mem_cons_self _ _)
    have htail : ∀ q ∈ rest, ¬ q.1 = k :=
      fun q hq => h q (List.mem_cons_of_mem _ hq)
    unfold reconcileStages
    cases hit : dictGet items sid
    · simp only [hit]
      exact ih items b htail
    · cases hso : dictGet stages sid <;>
      · simp only [hit, hso]
        rw [ih _ _ htail]
        exact dictGet_insert_other items sid k _ (fun he => hne he.symm)

theorem reconcile_find_of_stage (stages : List (String × Stage))
    (defs : List (String × String)) (items : List (String × ItemState))
    (b : Bool) (sid : String) (stg : Stage)
    (hstg : dictGet stages sid = some stg)
    (hitem : (dictGet items sid).isSome = true)
    (hfind : (defs.find? (fun q => q.1 == sid)).isSome = true) :
    (reconcileStages stages defs items b).1.find? (fun q => q.1 == sid) =
      some (sid, stg.title) := by
  induction defs generalizing items b with
  | nil => simp [List.find?] at hfind
  | cons p rest ih =>
    obtain ⟨eid, stored⟩ := p
    by_cases he : eid = sid
    · subst he
      cases hit : dictGet items eid with
      | none => rw [hit] at hitem; simp at hitem
      | some it0 =>
        unfold reconcileStages
        simp only [hit, hstg]
        rw [List.find?]
        simp
    · have hfind2 : (rest.find? (fun q => q.1 == sid)).isSome = true := by
        rw [List.find?] at hfind
        simpa [show (eid == sid) = false by simpa using he] using hfind
      unfold reconcileStages
      cases hit : dictGet items eid
      · simp only [hit]
        rw [List.find?]
        simp only [show (eid == sid) = false by simpa using he]
        exact ih items b hitem hfind2
      · cases hso : dictGet stages eid <;>
        · simp only [hit, hso]
          rw [List.find?]
          simp only [show (eid == sid) = false by simpa using he]
          refine ih _ _ ?_ hfind2
          rw [dictGet_insert_other items eid sid _ (fun hh => he hh.symm)]
          exact hitem

theorem reconcile_establishes (stages : List (String × Stage))
    (defs : List (String × String)) (items : List (String × ItemState))
    (b : Bool) (hnd : (defs.map Prod.fst).Nodup) :
    Reconciled stages (reconcileStages stages defs items b).1
      (reconcileStages stages defs items b).2.1 := by
  induction defs generalizing items b with
  | nil =>
    intro e he
    simp [reconcileStages] at he
  | cons p rest ih =>
    obtain ⟨sid, stored⟩ := p
    rw [List.map_cons, List.nodup_cons] at hnd
    have hrestne : ∀ q ∈ rest, ¬ q.1 = sid := by
      intro q hq he
      apply hnd.1
      rw [← he]
      exact List.mem_map.mpr ⟨q, hq, rfl⟩
    unfold Reconciled
    unfold reconcileStages
    cases hit : dictGet items sid with
    | none =>
      simp only [hit]
      intro e he it hget
      rcases List.mem_cons.mp he with h1 | h1
      · exfalso
        subst h1
        have hkeys := reconcile_items_keys stages rest items b
        have hnone :
            dictGet (reconcileStages stages rest items b).2.1 sid = none := by
          rw [dictGet_eq_none_iff, hkeys, ← dictGet_eq_none_iff]
          exact hit
        dsimp only at hget
        rw [hnone] at hget
        simp at hget
      · exact ih items b hnd.2 e h1 it hget
    | some it0 =>
      cases hso : dictGet stages sid with
      | none =>
        simp only [hit, hso]
        intro e he it hget
        rcases List.mem_cons.mp he with h1 | h1
        · subst h1
          dsimp only at hget ⊢
          constructor
          · unfold effectiveTitle
            rw [hso]
          · rw [reconcile_items_get_other _ _ _ _ _ hrestne] at hget
            rw [dictGet_insert_self] at hget
            have hita : it = (applyStageState it0 stored "pending" []).1 := by
              simpa using hget.symm
            rw [hita]
            unfold expectedItem effectiveTitle effectiveStatus
              effectiveMessages
            rw [hso]
            exact applyStageState_fst_ignores_item _ _ _ _ _
        · exact ih _ _ hnd.2 e h1 it hget
      | some so =>
        simp only [hit, hso]
        intro e he it hget
        rcases List.mem_cons.mp he with h1 | h1
        · subst h1
          dsimp only at hget ⊢
          constructor
          · unfold effectiveTitle
            rw [hso]
          · rw [reconcile_items_get_other _ _ _ _ _ hrestne] at hget
            rw [dictGet_insert_self] at hget
            have hita :
                it = (applyStageState it0 so.title so.status so.messages).1 := by
              simpa using hget.symm
            rw [hita]
            unfold expectedItem effectiveTitle effectiveStatus
              effectiveMessages
            rw [hso]
            exact applyStageState_fst_ignores_item _ _ _ _ _
        · exact ih _ _ hnd.2 e h1 it hget

theorem reconcile_of_reconciled (stages : List (String × Stage))
    (defs : List (String × String)) (items : List (String × ItemState))
    (b : Bool) (hnd : (items.map Prod.fst).Nodup)
    (hrec : Reconciled stages defs items) :
    reconcileStages stages defs items b =
      (defs, items,
        b && registryAllTerminal stages items (defs.map Prod.fst)) := by
  induction defs generalizing b with
  | nil => simp [reconcileStages, registryAllTerminal]
  | cons p rest ih =>
    obtain ⟨sid, stored⟩ := p
    have hrec2 : Reconciled stages rest items :=
      fun e he it hg => hrec e (List.mem_cons_of_mem _ he) it hg
    unfold reconcileStages
    cases hit : dictGet items sid with
    | none =>
      simp only [hit]
      rw [ih b hrec2]
      simp [registryAllTerminal, hit]
    | some it0 =>
      obtain ⟨ht1, ht2⟩ := hrec (sid, stored) (List.mem_cons_self _ _) it0 hit
      dsimp only at ht1 ht2
      cases hso : dictGet stages sid with
      | none =>
        simp only [hit, hso]
        have happ1 : (applyStageState it0 stored "pending" []).1 = it0 := by
          rw [ht2]
          unfold expectedItem effectiveTitle effectiveStatus
            effectiveMessages
          rw [hso]
          exact applyStageState_fst_ignores_item _ _ _ _ _
        rw [happ1]
        rw [dictInsert_id items sid it0 hnd hit]
        rw [ih _ hrec2]
        simp [registryAllTerminal, hit, hso, effectiveStatus,
          applyStageState_snd, Bool.and_assoc]
      | some so =>
        simp only [hit, hso]
        have hstored : stored = so.title := by
          rw [ht1]
          unfold effectiveTitle
          rw [hso]
        have happ1 :
            (applyStageState it0 so.title so.status so.messages).1 = it0 := by
          rw [ht2]
          unfold expectedItem effectiveTitle effectiveStatus
            effectiveMessages
          rw [hso]
          exact applyStageState_fst_ignores_item _ _ _ _ _
        rw [happ1]
        rw [dictInsert_id items sid it0 hnd hit]
        rw [ih _ hrec2]
        rw [← hstored]
        simp [registryAllTerminal, hit, hso, effectiveStatus,
          applyStageState_snd, Bool.and_assoc]

-- ## C4: poll idempotence assembly

theorem boardState_ext (a b : BoardState)
    (h1 : a.stageDefinitions = b.stageDefinitions) (h2 : a.items = b.items)
    (h3 : a.repoIndexCache = b.repoIndexCache)
    (h4 : a.completionTriggered = b.completionTriggered)
    (h5 : a.timerActive = b.timerActive)
    (h6 : a.statusLabel = b.statusLabel) (h7 : a.emitCount = b.emitCount)
    (h8 : a.selectedStageId = b.selectedStageId)
    (h9 : a.detailTable = b.detailTable) : a = b := by
  cases a
  cases b
  simp_all

theorem refresh_some_items (cwd : PyPath) (fs : FS) (st : BoardState)
    (snap : Snapshot) (workerDone : Bool) :
    (refreshSnapshot cwd fs st (some snap) workerDone).items =
      (updateFromSnapshot cwd fs st snap).items := by
  rw [refresh_some_eq]
  split
  · rw [(handleCompletion_frame _).2.1]
  · rfl

theorem refresh_some_table (cwd : PyPath) (fs : FS) (st : BoardState)
    (snap : Snapshot) (workerDone : Bool) :
    (refreshSnapshot cwd fs st (some snap) workerDone).detailTable =
      (updateFromSnapshot cwd fs st snap).detailTable := by
  rw [refresh_some_eq]
  split
  · rw [(handleCompletion_frame _).2.2.2.2.2]
  · rfl

theorem refresh_some_selected (cwd : PyPath) (fs : FS) (st : BoardState)
    (snap : Snapshot) (workerDone : Bool) :
    (refreshSnapshot cwd fs st (some snap) workerDone).selectedStageId =
      st.selectedStageId := by
  rw [refresh_some_eq]
  split
  · rw [(handleCompletion_frame _).2.2.2.2.1]
    exact (update_frame cwd fs st snap).2.2.2
  · exact (update_frame cwd fs st snap).2.2.2

theorem refresh_some_label_nofire (cwd : PyPath) (fs : FS) (st : BoardState)
    (snap : Snapshot) (workerDone : Bool)
    (h : (workerDone && !st.completionTriggered) = false) :
    (refreshSnapshot cwd fs st (some snap) workerDone).statusLabel =
      (updateFromSnapshot cwd fs st snap).statusLabel := by
  rw [refresh_some_eq]
  rw [if_neg (by
    rw [(update_frame cwd fs st snap).1]
    simp [h])]

theorem update_idem_aux (cwd : PyPath) (fs : FS) (st Y : BoardState)
    (snap : Snapshot) (hsn : (snap.stages.map Prod.fst).Nodup)
    (hnd1 : (st.stageDefinitions.map Prod.fst).Nodup)
    (hnd2 : (st.items.map Prod.fst).Nodup)
    (hnd3 : (st.repoIndexCache.map Prod.fst).Nodup)
    (hd : Y.stageDefinitions =
      (updateFromSnapshot cwd fs st snap).stageDefinitions)
    (hi : Y.items = (updateFromSnapshot cwd fs st snap).items)
    (hc : Y.repoIndexCache =
      (updateFromSnapshot cwd fs st snap).repoIndexCache)
    (htb : Y.detailTable = (updateFromSnapshot cwd fs st snap).detailTable)
    (hsel : Y.selectedStageId = st.selectedStageId) :
    updateFromSnapshot cwd fs Y snap =
      { Y with statusLabel :=
          if !snap.stages.isEmpty && !Y.completionTriggered then
            (if (reconcileStages snap.stages
                  (ingestStages snap.stages st.stageDefinitions st.items).1
                  (ingestStages snap.stages st.stageDefinitions st.items).2
                  true).2.2 then allDoneText
             else trackingText)
          else Y.statusLabel } := by
  have hndD1 : (((ingestStages snap.stages st.stageDefinitions
      st.items).1.map Prod.fst)).Nodup :=
    ingest_defs_nodup snap.stages st.stageDefinitions st.items hnd1
  have hndI1 : (((ingestStages snap.stages st.stageDefinitions
      st.items).2.map Prod.fst)).Nodup :=
    ingest_items_nodup snap.stages st.stageDefinitions st.items hnd2
  have hD2 : Y.stageDefinitions =
      (reconcileStages snap.stages
        (ingestStages snap.stages st.stageDefinitions st.items).1
        (ingestStages snap.stages st.stageDefinitions st.items).2 true).1 := by
    rw [hd, update_defs_eq]
  have hI2 : Y.items =
      (reconcileStages snap.stages
        (ingestStages snap.stages st.stageDefinitions st.items).1
        (ingestStages snap.stages st.stageDefinitions st.items).2 true).2.1 := by
    rw [hi, update_items_eq]
  have hI2keys : Y.items.map Prod.fst =
      (ingestStages snap.stages st.stageDefinitions st.items).2.map
        Prod.fst := by
    rw [hI2, reconcile_items_keys]
  have hndI2 : (Y.items.map Prod.fst).Nodup := by
    rw [hI2keys]
    exact hndI1
  have hRec : Reconciled snap.stages Y.stageDefinitions Y.items := by
    rw [hD2, hI2]
    exact reconcile_establishes snap.stages _ _ true hndD1
  have hing2 : ingestStages snap.stages Y.stageDefinitions Y.items =
      (Y.stageDefinitions, Y.items) := by
    apply ingest_id
    intro p hp
    have hstg : dictGet snap.stages p.1 = some p.2 :=
      dictGet_of_nodup_mem snap.stages p.1 p.2 hsn (by simpa using hp)
    have hitem1 : (dictGet (ingestStages snap.stages st.stageDefinitions
        st.items).2 p.1).isSome = true :=
      ingest_items_isSome_self snap.stages st.stageDefinitions st.items p hp
    have hfind1 : ((ingestStages snap.stages st.stageDefinitions
        st.items).1.find? (fun e => e.1 == p.1)).isSome = true := by
      rw [ingest_find_self snap.stages st.stageDefinitions st.items hsn p hp]
      rfl
    constructor
    · rw [hD2]
      exact reconcile_find_of_stage snap.stages _ _ true p.1 p.2 hstg
        hitem1 hfind1
    · rw [dictGet_isSome_iff, hI2keys, ← dictGet_isSome_iff]
      exact hitem1
  have hrec2 : reconcileStages snap.stages Y.stageDefinitions Y.items true =
      (Y.stageDefinitions, Y.items,
        true && registryAllTerminal snap.stages Y.items
          (Y.stageDefinitions.map Prod.fst)) :=
    reconcile_of_reconciled snap.stages Y.stageDefinitions Y.items true
      hndI2 hRec
  have hallT : registryAllTerminal snap.stages Y.items
      (Y.stageDefinitions.map Prod.fst) =
      (reconcileStages snap.stages
        (ingestStages snap.stages st.stageDefinitions st.items).1
        (ingestStages snap.stages st.stageDefinitions st.items).2
        true).2.2 := by
    rw [reconcile_allDone]
    rw [registryAllTerminal_congr snap.stages Y.items _ _ hI2keys]
    rw [hD2, reconcile_keys]
    simp
  have hcacheY : refreshStageRepoDetails cwd fs Y.repoIndexCache
      snap.stages = Y.repoIndexCache := by
    rw [hc, update_cache_eq]
    exact refreshDetails_idem cwd fs st.repoIndexCache snap.stages hsn hnd3
  apply boardState_ext
  · rw [update_defs_eq, hing2]
    dsimp only
    rw [hrec2]
  · rw [update_items_eq, hing2]
    dsimp only
    rw [hrec2]
  · rw [update_cache_eq]
    exact hcacheY
  · exact (update_frame cwd fs Y snap).1
  · exact (update_frame cwd fs Y snap).2.1
  · rw [update_label_eq, hing2]
    dsimp only
    rw [hrec2]
    dsimp only
    rw [Bool.true_and, hallT]
  · exact (update_frame cwd fs Y snap).2.2.1
  · exact (update_frame cwd fs Y snap).2.2.2
  · rw [update_table_eq, hcacheY, hsel]
    rw [htb, update_table_eq, hc, update_cache_eq]

theorem refresh_idempotent (cwd : PyPath) (fs : FS) (st : BoardState)
    (snap : Snapshot) (wd : Bool)
    (hsn : (snap.stages.map Prod.fst).Nodup)
    (hnd1 : (st.stageDefinitions.map Prod.fst).Nodup)
    (hnd2 : (st.items.map Prod.fst).Nodup)
    (hnd3 : (st.repoIndexCache.map Prod.fst).Nodup) :
    refreshSnapshot cwd fs (refreshSnapshot cwd fs st (some snap) wd)
        (some snap) wd =
      refreshSnapshot cwd fs st (some snap) wd := by
  have hc : (refreshSnapshot cwd fs st (some snap) wd).repoIndexCache =
      (updateFromSnapshot cwd fs st snap).repoIndexCache := by
    rw [refresh_some_cache, update_cache_eq]
  have haux := update_idem_aux cwd fs st
    (refreshSnapshot cwd fs st (some snap) wd) snap hsn hnd1 hnd2 hnd3
    (refresh_some_defs cwd fs st snap wd)
    (refresh_some_items cwd fs st snap wd) hc
    (refresh_some_table cwd fs st snap wd)
    (refresh_some_selected cwd fs st snap wd)
  have hctY := (refresh_some_post cwd fs st snap wd).2.1
  have hlab : (wd && !st.completionTriggered) = false →
      (refreshSnapshot cwd fs st (some snap) wd).statusLabel =
        (updateFromSnapshot cwd fs st snap).statusLabel :=
    refresh_some_label_nofire cwd fs st snap wd
  rw [refresh_some_eq cwd fs (refreshSnapshot cwd fs st (some snap) wd)
    snap wd]
  rw [haux]
  set Y := refreshSnapshot cwd fs st (some snap) wd with hY
  cases hor : (st.completionTriggered || wd)
  · have hct : st.completionTriggered = false := by
      cases h2 : st.completionTriggered
      · rfl
      · rw [h2] at hor
        simp at hor
    have hw : wd = false := by
      cases h2 : wd
      · rfl
      · rw [h2] at hor
        simp at hor
    have hYct : Y.completionTriggered = false := by
      rw [hctY, hor]
    rw [hw]
    simp only [Bool.false_and, Bool.false_eq_true, if_false]
    apply boardState_ext <;> try rfl
    show (if (!snap.stages.isEmpty && !Y.completionTriggered) = true then
        (if (reconcileStages snap.stages
              (ingestStages snap.stages st.stageDefinitions st.items).1
              (ingestStages snap.stages st.stageDefinitions st.items).2
              true).2.2 = true then allDoneText
         else trackingText)
      else Y.statusLabel) = Y.statusLabel
    cases hemp : snap.stages.isEmpty
    · have hlab2 := hlab (by rw [hw]; rfl)
      rw [update_label_eq, hct, hemp] at hlab2
      simp only [Bool.not_false, Bool.and_true, Bool.true_and,
        if_true] at hlab2
      simp only [hYct, hemp, Bool.not_false, Bool.and_true, if_true]
      rw [← hlab2]
    · simp [hemp]
  · have hYct : Y.completionTriggered = true := by
      rw [hctY, hor]
    rw [if_neg (by simp [hYct])]
    apply boardState_ext <;> try rfl
    show (if (!snap.stages.isEmpty && !Y.completionTriggered) = true then
        (if (reconcileStages snap.stages
              (ingestStages snap.stages st.stageDefinitions st.items).1
              (ingestStages snap.stages st.stageDefinitions st.items).2
              true).2.2 = true then allDoneText
         else trackingText)
      else Y.statusLabel) = Y.statusLabel
    simp [hYct]

/-- C4: when the index file's stat succeeds and its mtime equals the cached
entry's recorded mtime, the loader returns the cached entry unchanged — for
an arbitrary filesystem oracle, so in particular without consulting the
file's contents (no re-read, no re-parse); consequently a second poll with
the same snapshot and the same filesystem reproduces the first poll's state
exactly (idempotence of the poll, stated for duplicate-free snapshot and
board dictionaries, which dict semantics guarantees). -/
theorem c4_mtime_cache_hit_and_poll_idempotent (cwd : PyPath) (fs : FS)
    (cache : List (String × RepoIndexCacheEntry)) (sid : String)
    (metadata : List (String × PyVal)) (m : Int) (c : RepoIndexCacheEntry)
    (st : BoardState) (snap : Snapshot) (wd : Bool) :
    (pyTruthy (pyGet metadata "repo_progress_index_path") = true →
      fs.stat (parsePath (pyStr
        (pyGet metadata "repo_progress_index_path"))) = some m →
      dictGet cache sid = some c → c.mtime = some m →
      loadRepoIndexPayload cwd fs cache sid metadata = some c) ∧
    ((snap.stages.map Prod.fst).Nodup →
      (st.stageDefinitions.map Prod.fst).Nodup →
      (st.items.map Prod.fst).Nodup →
      (st.repoIndexCache.map Prod.fst).Nodup →
      refreshSnapshot cwd fs (refreshSnapshot cwd fs st (some snap) wd)
          (some snap) wd =
        refreshSnapshot cwd fs st (some snap) wd) :=
  ⟨fun ht hst hc hm => load_hit cwd fs cache sid metadata m c ht hst hc hm,
   fun h1 h2 h3 h4 => refresh_idempotent cwd fs st snap wd h1 h2 h3 h4⟩

/-- Witness for C4: a concrete cache hit returns the cached entry, and a
concrete double poll collapses to a single one. -/
theorem c4_mtime_cache_hit_and_poll_idempotent_witness :
    loadRepoIndexPayload wCwd wFS [("alpha", wCacheEntry)] "alpha" wMeta =
      some wCacheEntry ∧
    refreshSnapshot wCwd wFS
        (refreshSnapshot wCwd wFS (initState [("alpha", "Alpha")])
          (some wSnapB) true) (some wSnapB) true =
      refreshSnapshot wCwd wFS (initState [("alpha", "Alpha")])
        (some wSnapB) true :=
  ⟨(c4_mtime_cache_hit_and_poll_idempotent wCwd wFS
      [("alpha", wCacheEntry)] "alpha" wMeta 5 wCacheEntry
      (initState [("alpha", "Alpha")]) wSnapB true).1
      (by decide) rfl (by decide) rfl,
   (c4_mtime_cache_hit_and_poll_idempotent wCwd wFS
      [("alpha", wCacheEntry)] "alpha" wMeta 5 wCacheEntry
      (initState [("alpha", "Alpha")]) wSnapB true).2
      (by decide) (by decide) (by decide) (by decide)⟩
